import Mathlib

/-!
# fuseml-core: the extension registry service (pkg/svc/extension.go)

A shallow embedding of the translation layer between the REST types of the
extension service and the domain types of the extension registry, of the
service operations that call the registry, and of the method Create of the
workflow manager (pkg/core/manager/workflow.go).

Conventions of the embedding:
* a Go `string` is its sequence of bytes, each byte a natural number below 256;
* a Go `*string` / `*bool` is an `Option`, `none` being the nil pointer;
* a Go `map[string]string` is an `Option` of an association list, `none` being
  the nil map; a Go `[]string` is an `Option` of a list, `none` being nil;
* a registry method takes the registry state and returns its result together
  with the next state.
-/

/-- A Go string: its bytes, in order. -/
abbrev GoString := List Nat

/-- The bytes of an ASCII literal. -/
def ascii (s : String) : GoString := s.toList.map Char.toNat

/-- A Go `map[string]string`; `none` is the nil map. -/
abbrev GoMap := Option (List (GoString × GoString))

/-- A Go `[]string`; `none` is the nil slice. -/
abbrev GoStrings := Option (List GoString)

/-- A Go `time.Time`, as a count from the zero time. -/
structure Time where
  ticks : Nat
  deriving DecidableEq, Repr

/-- The zero value of `time.Time`. -/
def Time.zero : Time := ⟨0⟩

namespace GoMap

/-- The entries visited by `for k, v := range m`; a nil map has none. -/
def entries (m : GoMap) : List (GoString × GoString) := m.getD []

/-- The keys visited by `for k := range m`. -/
def keys (m : GoMap) : List GoString := (entries m).map Prod.fst

/-- The expression `m[k]` with the comma-ok flag: the first binding of `k`. -/
def lookup (m : GoMap) (k : GoString) : Option GoString :=
  ((entries m).find? (fun kv => kv.1 == k)).map Prod.snd

/-- The assignment `m[k] = v` on the entries of a non-nil map. -/
def setEntries : List (GoString × GoString) → GoString → GoString → List (GoString × GoString)
  | [], k, v => [(k, v)]
  | (k', v') :: rest, k, v =>
    if k' = k then (k, v) :: rest else (k', v') :: setEntries rest k v

end GoMap

namespace util

/-- Modelled from the spec: util.DerefString is not under src/; it returns the
pointed-to string, else the first of the variadic default values, else the
empty string (the per-field "optional wrapper" of the merge-patch design). -/
def DerefString (s : Option GoString) (defaultValue : List GoString) : GoString :=
  match s with
  | some v => v
  | none =>
    match defaultValue with
    | d :: _ => d
    | [] => []

/-- Modelled from the spec: util.DerefBool is not under src/; it returns the
pointed-to boolean, else the first of the variadic default values, else false. -/
def DerefBool (b : Option Bool) (defaultValue : List Bool) : Bool :=
  match b with
  | some v => v
  | none =>
    match defaultValue with
    | d :: _ => d
    | [] => false

/-- Modelled from the spec: util.RefString is not under src/; it returns a
pointer to its argument. -/
def RefString (s : GoString) : Option GoString := some s

end util

namespace url

/-- The helper `ishex` of Go's net/url: is the byte a hexadecimal digit. -/
def ishex (c : Nat) : Bool :=
  (48 ≤ c && c ≤ 57) || (97 ≤ c && c ≤ 102) || (65 ≤ c && c ≤ 70)

/-- The helper `unhex` of Go's net/url: the value of a hexadecimal digit. -/
def unhex (c : Nat) : Nat :=
  if 48 ≤ c ∧ c ≤ 57 then c - 48
  else if 97 ≤ c ∧ c ≤ 102 then c - 97 + 10
  else if 65 ≤ c ∧ c ≤ 70 then c - 65 + 10
  else 0

/-- The first loop of Go's `unescape` in path-segment mode: count the `%` and
check that each is followed by two hexadecimal digits. The error carries the
offending bytes (`%` and at most the two bytes after it), as `EscapeError` does. -/
def countEscapes : GoString → Except GoString Nat
  | [] => .ok 0
  | c :: rest =>
    if c = 37 then
      match rest with
      | a :: b :: rest' =>
        if ishex a && ishex b then
          match countEscapes rest' with
          | .ok n => .ok (n + 1)
          | .error e => .error e
        else .error [c, a, b]
      | _ => .error (c :: rest)
    else countEscapes rest

/-- The second loop of Go's `unescape` in path-segment mode: each `%xy` becomes
the byte `unhex x << 4 | unhex y`, every other byte (a `+` too) is copied. -/
def decodeEscapes : GoString → GoString
  | [] => []
  | c :: rest =>
    if c = 37 then
      match rest with
      | a :: b :: rest' => ((unhex a <<< 4) ||| unhex b) % 256 :: decodeEscapes rest'
      | _ => []
    else c :: decodeEscapes rest

/-- Go's `url.PathUnescape(s)`: on a malformed escape it returns the empty
string and an error; with no `%` it returns `s` itself; otherwise the decoded
bytes. The second component is the error, `none` being nil. -/
def PathUnescape (s : GoString) : GoString × Option GoString :=
  match countEscapes s with
  | .error e => ([], some e)
  | .ok n => if n = 0 then (s, none) else (decodeEscapes s, none)

end url

namespace domain

/-- The type domain.ExtensionServiceID. -/
structure ExtensionServiceID where
  ExtensionID : GoString
  ID : GoString
  deriving DecidableEq, Repr

/-- The type domain.ExtensionEndpointID. -/
structure ExtensionEndpointID where
  ExtensionID : GoString
  ServiceID : GoString
  URL : GoString
  deriving DecidableEq, Repr

/-- The type domain.ExtensionCredentialsID. -/
structure ExtensionCredentialsID where
  ExtensionID : GoString
  ServiceID : GoString
  ID : GoString
  deriving DecidableEq, Repr

/-- The type domain.Extension. -/
structure Extension where
  ID : GoString
  Product : GoString
  Version : GoString
  Description : GoString
  Zone : GoString
  Configuration : GoMap
  Registered : Time
  Updated : Time
  deriving DecidableEq, Repr

/-- The type domain.ExtensionService; it embeds its identity. -/
structure ExtensionService extends ExtensionServiceID where
  Resource : GoString
  Category : GoString
  Description : GoString
  AuthRequired : Bool
  Configuration : GoMap
  Registered : Time
  Updated : Time
  deriving DecidableEq, Repr

/-- The type domain.ExtensionEndpoint; it embeds its identity. -/
structure ExtensionEndpoint extends ExtensionEndpointID where
  Type_ : GoString
  Configuration : GoMap
  deriving DecidableEq, Repr

/-- The type domain.ExtensionCredentials; it embeds its identity. -/
structure ExtensionCredentials extends ExtensionCredentialsID where
  Scope : GoString
  Default : Bool
  Projects : GoStrings
  Users : GoStrings
  Configuration : GoMap
  Created : Time
  Updated : Time
  deriving DecidableEq, Repr

/-- The type domain.ExtensionServiceRecord. -/
structure ExtensionServiceRecord extends ExtensionService where
  Endpoints : List ExtensionEndpoint
  Credentials : List ExtensionCredentials
  deriving DecidableEq, Repr

/-- The type domain.ExtensionRecord. -/
structure ExtensionRecord extends Extension where
  Services : List ExtensionServiceRecord
  deriving DecidableEq, Repr

/-- The type domain.ExtensionQuery. -/
structure ExtensionQuery where
  ExtensionID : Option GoString
  Product : Option GoString
  VersionConstraints : Option GoString
  Zone : Option GoString
  StrictZoneMatch : Bool
  ServiceID : Option GoString
  ServiceResource : Option GoString
  ServiceCategory : Option GoString
  deriving DecidableEq, Repr

/-- Modelled from the spec: the constant domain.EETExternal is not under src/;
the endpoint type External. -/
def EETExternal : GoString := ascii "external"

/-- Modelled from the spec: the constant domain.ECSGlobal is not under src/;
the credentials scope Global. -/
def ECSGlobal : GoString := ascii "global"

/-- The errors of the registry by dynamic type: the eight types errToRest
switches on, and every other error; each carries its message. -/
inductive Error where
  | ErrExtensionNotFound (msg : GoString)
  | ErrExtensionServiceNotFound (msg : GoString)
  | ErrExtensionEndpointNotFound (msg : GoString)
  | ErrExtensionCredentialsNotFound (msg : GoString)
  | ErrExtensionExists (msg : GoString)
  | ErrExtensionServiceExists (msg : GoString)
  | ErrExtensionEndpointExists (msg : GoString)
  | ErrExtensionCredentialsExists (msg : GoString)
  | other (msg : GoString)
  deriving DecidableEq, Repr

/-- The interface domain.ExtensionRegistry, as far as the service calls it: each
method takes the registry state and returns its result and the next state. A
method returning `(record, error)` yields `.error` when the error is non-nil and
the record otherwise; a method returning only `error` yields `none` for nil. The
update methods receive a pointer, so they also yield the pointed-to value as
they leave it. -/
structure ExtensionRegistry (σ : Type) where
  RegisterExtension : σ → ExtensionRecord → Except Error ExtensionRecord × σ
  GetExtension : σ → GoString → Bool → Except Error ExtensionRecord × σ
  ListExtensions : σ → ExtensionQuery → Except Error (List ExtensionRecord) × σ
  UpdateExtension : σ → Extension → (Option Error × Extension) × σ
  RemoveExtension : σ → GoString → Option Error × σ
  AddService : σ → ExtensionServiceRecord → Except Error ExtensionServiceRecord × σ
  GetService : σ → ExtensionServiceID → Bool → Except Error ExtensionServiceRecord × σ
  UpdateService : σ → ExtensionService → (Option Error × ExtensionService) × σ
  RemoveService : σ → ExtensionServiceID → Option Error × σ
  AddEndpoint : σ → ExtensionEndpoint → Except Error ExtensionEndpoint × σ
  GetEndpoint : σ → ExtensionEndpointID → Except Error ExtensionEndpoint × σ
  UpdateEndpoint : σ → ExtensionEndpoint → (Option Error × ExtensionEndpoint) × σ
  RemoveEndpoint : σ → ExtensionEndpointID → Option Error × σ
  AddCredentials : σ → ExtensionCredentials → Except Error ExtensionCredentials × σ
  GetCredentials : σ → ExtensionCredentialsID → Except Error ExtensionCredentials × σ
  UpdateCredentials : σ → ExtensionCredentials → (Option Error × ExtensionCredentials) × σ
  RemoveCredentials : σ → ExtensionCredentialsID → Option Error × σ

end domain

namespace extension

/-- The type extension.ExtensionStatus. -/
structure ExtensionStatus where
  Registered : GoString
  Updated : GoString
  deriving DecidableEq, Repr

/-- The type extension.ExtensionServiceStatus. -/
structure ExtensionServiceStatus where
  Registered : GoString
  Updated : GoString
  deriving DecidableEq, Repr

/-- The type extension.ExtensionEndpointStatus. -/
structure ExtensionEndpointStatus where
  deriving DecidableEq, Repr

/-- The type extension.ExtensionCredentialsStatus. -/
structure ExtensionCredentialsStatus where
  Created : GoString
  Updated : GoString
  deriving DecidableEq, Repr

/-- The type extension.ExtensionEndpoint. -/
structure ExtensionEndpoint where
  URL : Option GoString
  ExtensionID : Option GoString
  ServiceID : Option GoString
  Type_ : Option GoString
  Configuration : GoMap
  Status : Option ExtensionEndpointStatus
  deriving DecidableEq, Repr

/-- The type extension.ExtensionCredentials. -/
structure ExtensionCredentials where
  ID : Option GoString
  ExtensionID : Option GoString
  ServiceID : Option GoString
  Scope : Option GoString
  Default : Option Bool
  Projects : GoStrings
  Users : GoStrings
  Configuration : GoMap
  Status : Option ExtensionCredentialsStatus
  deriving DecidableEq, Repr

/-- The type extension.ExtensionService. -/
structure ExtensionService where
  ID : Option GoString
  ExtensionID : Option GoString
  Resource : Option GoString
  Category : Option GoString
  Description : Option GoString
  AuthRequired : Option Bool
  Configuration : GoMap
  Status : Option ExtensionServiceStatus
  Endpoints : List ExtensionEndpoint
  Credentials : List ExtensionCredentials
  deriving DecidableEq, Repr

/-- The type extension.Extension. -/
structure Extension where
  ID : Option GoString
  Product : Option GoString
  Version : Option GoString
  Description : Option GoString
  Zone : Option GoString
  Configuration : GoMap
  Status : Option ExtensionStatus
  Services : List ExtensionService
  deriving DecidableEq, Repr

/-- The type extension.ExtensionQuery. -/
structure ExtensionQuery where
  ExtensionID : Option GoString
  Product : Option GoString
  Version : Option GoString
  Zone : Option GoString
  ServiceID : Option GoString
  ServiceResource : Option GoString
  ServiceCategory : Option GoString
  deriving DecidableEq, Repr

/-- The type extension.GetEndpointPayload. -/
structure GetEndpointPayload where
  ExtensionID : GoString
  ServiceID : GoString
  URL : GoString
  deriving DecidableEq, Repr

/-- The type extension.DeleteEndpointPayload. -/
structure DeleteEndpointPayload where
  ExtensionID : GoString
  ServiceID : GoString
  URL : GoString
  deriving DecidableEq, Repr

/-- The names of the service errors the extension service declares. -/
inductive ErrorName where
  | NotFound
  | Conflict
  | BadRequest
  deriving DecidableEq, Repr

/-- The service error built by the generated `Make...` functions: its name and
the error it wraps. -/
structure ServiceError where
  Name : ErrorName
  cause : domain.Error
  deriving DecidableEq, Repr

/-- Modelled from the spec: extension.MakeNotFound is generated code, not under
src/; it builds the service error named NotFound from the error. -/
def MakeNotFound (err : domain.Error) : ServiceError := ⟨.NotFound, err⟩

/-- Modelled from the spec: extension.MakeConflict is generated code, not under
src/; it builds the service error named Conflict from the error. -/
def MakeConflict (err : domain.Error) : ServiceError := ⟨.Conflict, err⟩

/-- Modelled from the spec: extension.MakeBadRequest is generated code, not under
src/; it builds the service error named BadRequest from the error. -/
def MakeBadRequest (err : domain.Error) : ServiceError := ⟨.BadRequest, err⟩

end extension

namespace svc

/-- The placeholder written by obfuscateCredentials. -/
def hidden : GoString := ascii "<hidden>"

/-- The function obfuscateCredentials: a fresh map, then one assignment of the
placeholder per key of the argument. -/
def obfuscateCredentials (config : GoMap) : GoMap :=
  some ((GoMap.keys config).foldl (fun result k => GoMap.setEntries result k hidden) [])


/-- The function extensionToDomain. -/
def extensionToDomain (extension : extension.Extension) : domain.Extension :=
  { ID := util.DerefString extension.ID []
    Product := util.DerefString extension.Product []
    Version := util.DerefString extension.Version []
    Description := util.DerefString extension.Description []
    Zone := util.DerefString extension.Zone []
    Configuration := extension.Configuration
    Registered := Time.zero
    Updated := Time.zero }

/-- The function extensionServiceToDomain. -/
def extensionServiceToDomain (service : extension.ExtensionService) : domain.ExtensionService :=
  { ExtensionID := util.DerefString service.ExtensionID []
    ID := util.DerefString service.ID []
    Resource := util.DerefString service.Resource []
    Category := util.DerefString service.Category []
    Description := util.DerefString service.Description []
    AuthRequired := util.DerefBool service.AuthRequired []
    Configuration := service.Configuration
    Registered := Time.zero
    Updated := Time.zero }

/-- The function extensionEndpointURLToDomain: the result of url.PathUnescape
overwrites the dereferenced URL, its error is dropped. -/
def extensionEndpointURLToDomain (URL : Option GoString) : GoString :=
  let decodedURL := util.DerefString URL []
  let decodedURL := (url.PathUnescape decodedURL).1
  decodedURL

/-- The function extensionEndpointToDomain. -/
def extensionEndpointToDomain (endpoint : extension.ExtensionEndpoint) : domain.ExtensionEndpoint :=
  { ExtensionID := util.DerefString endpoint.ExtensionID []
    ServiceID := util.DerefString endpoint.ServiceID []
    URL := extensionEndpointURLToDomain endpoint.URL
    Type_ := util.DerefString endpoint.Type_ [domain.EETExternal]
    Configuration := endpoint.Configuration }

/-- The function extensionCredentialsToDomain. -/
def extensionCredentialsToDomain (credentials : extension.ExtensionCredentials) :
    domain.ExtensionCredentials :=
  { ExtensionID := util.DerefString credentials.ExtensionID []
    ServiceID := util.DerefString credentials.ServiceID []
    ID := util.DerefString credentials.ID []
    Scope := util.DerefString credentials.Scope [domain.ECSGlobal]
    Default := util.DerefBool credentials.Default []
    Projects := credentials.Projects
    Users := credentials.Users
    Configuration := credentials.Configuration
    Created := Time.zero
    Updated := Time.zero }

/-- The function extensionServiceRecordToDomain. -/
def extensionServiceRecordToDomain (service : extension.ExtensionService) :
    domain.ExtensionServiceRecord :=
  { toExtensionService := extensionServiceToDomain service
    Endpoints := service.Endpoints.foldl
      (fun acc endpoint => acc ++ [extensionEndpointToDomain endpoint]) []
    Credentials := service.Credentials.foldl
      (fun acc credentials => acc ++ [extensionCredentialsToDomain credentials]) [] }

/-- The function extensionRecordToDomain. -/
def extensionRecordToDomain (ext : extension.Extension) : domain.ExtensionRecord :=
  { toExtension := extensionToDomain ext
    Services := ext.Services.foldl
      (fun acc service => acc ++ [extensionServiceRecordToDomain service]) [] }

/-- The function extensionQueryToDomain. -/
def extensionQueryToDomain (query : extension.ExtensionQuery) : domain.ExtensionQuery :=
  { ExtensionID := query.ExtensionID
    Product := query.Product
    VersionConstraints := query.Version
    Zone := query.Zone
    StrictZoneMatch := true
    ServiceID := query.ServiceID
    ServiceResource := query.ServiceResource
    ServiceCategory := query.ServiceCategory }

/-- The function extensionToRest; `RFC3339 t` stands for `t.Format(time.RFC3339)`. -/
def extensionToRest (RFC3339 : Time → GoString) (ext : domain.Extension) : extension.Extension :=
  { ID := util.RefString ext.ID
    Product := util.RefString ext.Product
    Version := util.RefString ext.Version
    Description := util.RefString ext.Description
    Zone := util.RefString ext.Zone
    Configuration := ext.Configuration
    Status := some { Registered := RFC3339 ext.Registered, Updated := RFC3339 ext.Updated }
    Services := [] }

/-- The function extensionServiceToRest. -/
def extensionServiceToRest (RFC3339 : Time → GoString) (service : domain.ExtensionService) :
    extension.ExtensionService :=
  { ID := util.RefString service.ID
    ExtensionID := util.RefString service.ExtensionID
    Resource := util.RefString service.Resource
    Category := util.RefString service.Category
    Description := util.RefString service.Description
    AuthRequired := some service.AuthRequired
    Configuration := service.Configuration
    Status := some { Registered := RFC3339 service.Registered, Updated := RFC3339 service.Updated }
    Endpoints := []
    Credentials := [] }

/-- The function extensionEndpointToRest. -/
def extensionEndpointToRest (endpoint : domain.ExtensionEndpoint) : extension.ExtensionEndpoint :=
  { URL := util.RefString endpoint.URL
    ExtensionID := util.RefString endpoint.ExtensionID
    ServiceID := util.RefString endpoint.ServiceID
    Type_ := util.RefString endpoint.Type_
    Configuration := endpoint.Configuration
    Status := some {} }

/-- The function extensionCredentialsToRest. -/
def extensionCredentialsToRest (RFC3339 : Time → GoString)
    (credentials : domain.ExtensionCredentials) : extension.ExtensionCredentials :=
  { ID := util.RefString credentials.ID
    ExtensionID := util.RefString credentials.ExtensionID
    ServiceID := util.RefString credentials.ServiceID
    Scope := util.RefString credentials.Scope
    Default := some credentials.Default
    Projects := credentials.Projects
    Users := credentials.Users
    Configuration := obfuscateCredentials credentials.Configuration
    Status := some { Created := RFC3339 credentials.Created, Updated := RFC3339 credentials.Updated } }

/-- The function extensionServiceRecordToRest. -/
def extensionServiceRecordToRest (RFC3339 : Time → GoString)
    (svcRecord : domain.ExtensionServiceRecord) : extension.ExtensionService :=
  let result := extensionServiceToRest RFC3339 svcRecord.toExtensionService
  let result := svcRecord.Endpoints.foldl
    (fun (result : extension.ExtensionService) epRecord =>
      { result with Endpoints := result.Endpoints ++ [extensionEndpointToRest epRecord] }) result
  let result := svcRecord.Credentials.foldl
    (fun (result : extension.ExtensionService) credsRecord =>
      { result with
        Credentials := result.Credentials ++ [extensionCredentialsToRest RFC3339 credsRecord] })
    result
  result

/-- The function extensionRecordToRest. -/
def extensionRecordToRest (RFC3339 : Time → GoString) (extRecord : domain.ExtensionRecord) :
    extension.Extension :=
  let result := extensionToRest RFC3339 extRecord.toExtension
  extRecord.Services.foldl
    (fun (result : extension.Extension) svcRecord =>
      { result with
        Services := result.Services ++ [extensionServiceRecordToRest RFC3339 svcRecord] })
    result

/-- The function errToRest: a switch on the dynamic type of the error. -/
def errToRest (err : domain.Error) : Option extension.ServiceError :=
  match err with
  | .ErrExtensionNotFound _ => some (extension.MakeNotFound err)
  | .ErrExtensionServiceNotFound _ => some (extension.MakeNotFound err)
  | .ErrExtensionEndpointNotFound _ => some (extension.MakeNotFound err)
  | .ErrExtensionCredentialsNotFound _ => some (extension.MakeNotFound err)
  | .ErrExtensionExists _ => some (extension.MakeConflict err)
  | .ErrExtensionServiceExists _ => some (extension.MakeConflict err)
  | .ErrExtensionEndpointExists _ => some (extension.MakeConflict err)
  | .ErrExtensionCredentialsExists _ => some (extension.MakeConflict err)
  | _ => some (extension.MakeBadRequest err)

/-- What a service method returns: the result and the error, either possibly nil. -/
abbrev Reply (α : Type) := Option α × Option extension.ServiceError

/-- The method GetExtension of the service. -/
def GetExtension {σ : Type} (RFC3339 : Time → GoString) (registry : domain.ExtensionRegistry σ)
    (st : σ) (reqID : GoString) : Reply extension.Extension × σ :=
  match registry.GetExtension st reqID true with
  | (.error err, st1) => ((none, errToRest err), st1)
  | (.ok extRecord, st1) => ((some (extensionRecordToRest RFC3339 extRecord), none), st1)

/-- The method ListExtensions of the service: the result is a slice of pointers
of the length of the registry's list, all nil at first, whose entry `i` is then
assigned the translation of record `i`. -/
def ListExtensions {σ : Type} (RFC3339 : Time → GoString) (registry : domain.ExtensionRegistry σ)
    (st : σ) (query : extension.ExtensionQuery) :
    Reply (List (Option extension.Extension)) × σ :=
  match registry.ListExtensions st (extensionQueryToDomain query) with
  | (.error err, st1) => ((none, errToRest err), st1)
  | (.ok extRecords, st1) =>
    let res : List (Option extension.Extension) := List.replicate extRecords.length none
    let res := extRecords.enum.foldl
      (fun res p => res.set p.1 (some (extensionRecordToRest RFC3339 p.2))) res
    ((some res, none), st1)

/-- The method UpdateExtension of the service. -/
def UpdateExtension {σ : Type} (RFC3339 : Time → GoString) (registry : domain.ExtensionRegistry σ)
    (st : σ) (req : extension.Extension) : Reply extension.Extension × σ :=
  let ext := extensionToDomain req
  match registry.GetExtension st ext.ID false with
  | (.error err, st1) => ((none, errToRest err), st1)
  | (.ok extRecord, st1) =>
    let extUpdate : domain.Extension :=
      { ID := ext.ID
        Product := util.DerefString req.Product [extRecord.Product]
        Version := util.DerefString req.Version [extRecord.Version]
        Description := util.DerefString req.Description [extRecord.Description]
        Zone := util.DerefString req.Zone [extRecord.Zone]
        Configuration := extRecord.Configuration
        Registered := Time.zero
        Updated := Time.zero }
    let extUpdate :=
      if req.Configuration.isSome then { extUpdate with Configuration := req.Configuration }
      else extUpdate
    match registry.UpdateExtension st1 extUpdate with
    | ((some err, _), st2) => ((none, errToRest err), st2)
    | ((none, extUpdate), st2) => ((some (extensionToRest RFC3339 extUpdate), none), st2)

/-- The method UpdateService of the service. -/
def UpdateService {σ : Type} (RFC3339 : Time → GoString) (registry : domain.ExtensionRegistry σ)
    (st : σ) (req : extension.ExtensionService) : Reply extension.ExtensionService × σ :=
  let service := extensionServiceToDomain req
  match registry.GetService st { ID := service.ID, ExtensionID := service.ExtensionID } false with
  | (.error err, st1) => ((none, errToRest err), st1)
  | (.ok svcRecord, st1) =>
    let svcUpdate : domain.ExtensionService :=
      { toExtensionServiceID := svcRecord.toExtensionServiceID
        Resource := util.DerefString req.Resource [svcRecord.Resource]
        Category := util.DerefString req.Category [svcRecord.Category]
        Description := util.DerefString req.Description [svcRecord.Description]
        AuthRequired := util.DerefBool req.AuthRequired [svcRecord.AuthRequired]
        Configuration := svcRecord.Configuration
        Registered := Time.zero
        Updated := Time.zero }
    let svcUpdate :=
      if req.Configuration.isSome then { svcUpdate with Configuration := req.Configuration }
      else svcUpdate
    match registry.UpdateService st1 svcUpdate with
    | ((some err, _), st2) => ((none, errToRest err), st2)
    | ((none, svcUpdate), st2) => ((some (extensionServiceToRest RFC3339 svcUpdate), none), st2)

/-- The method AddEndpoint of the service. -/
def AddEndpoint {σ : Type} (registry : domain.ExtensionRegistry σ)
    (st : σ) (req : extension.ExtensionEndpoint) : Reply extension.ExtensionEndpoint × σ :=
  match registry.AddEndpoint st (extensionEndpointToDomain req) with
  | (.error err, st1) => ((none, errToRest err), st1)
  | (.ok endpoint, st1) => ((some (extensionEndpointToRest endpoint), none), st1)

/-- The method GetEndpoint of the service. -/
def GetEndpoint {σ : Type} (registry : domain.ExtensionRegistry σ)
    (st : σ) (req : extension.GetEndpointPayload) : Reply extension.ExtensionEndpoint × σ :=
  match registry.GetEndpoint st
      { ExtensionID := req.ExtensionID
        ServiceID := req.ServiceID
        URL := extensionEndpointURLToDomain (some req.URL) } with
  | (.error err, st1) => ((none, errToRest err), st1)
  | (.ok endpoint, st1) => ((some (extensionEndpointToRest endpoint), none), st1)

/-- The method UpdateEndpoint of the service: the lookup decodes the URL of the
already translated endpoint once more. -/
def UpdateEndpoint {σ : Type} (registry : domain.ExtensionRegistry σ)
    (st : σ) (req : extension.ExtensionEndpoint) : Reply extension.ExtensionEndpoint × σ :=
  let endpoint := extensionEndpointToDomain req
  match registry.GetEndpoint st
      { URL := extensionEndpointURLToDomain (some endpoint.URL)
        ExtensionID := endpoint.ExtensionID
        ServiceID := endpoint.ServiceID } with
  | (.error err, st1) => ((none, errToRest err), st1)
  | (.ok ep, st1) =>
    let epUpdate : domain.ExtensionEndpoint :=
      { toExtensionEndpointID := ep.toExtensionEndpointID
        Type_ := util.DerefString req.Type_ [ep.Type_]
        Configuration := ep.Configuration }
    let epUpdate :=
      if req.Configuration.isSome then { epUpdate with Configuration := req.Configuration }
      else epUpdate
    match registry.UpdateEndpoint st1 epUpdate with
    | ((some err, _), st2) => ((none, errToRest err), st2)
    | ((none, epUpdate), st2) => ((some (extensionEndpointToRest epUpdate), none), st2)

/-- The method DeleteEndpoint of the service. -/
def DeleteEndpoint {σ : Type} (registry : domain.ExtensionRegistry σ)
    (st : σ) (req : extension.DeleteEndpointPayload) : Option extension.ServiceError × σ :=
  match registry.RemoveEndpoint st
      { ExtensionID := req.ExtensionID
        ServiceID := req.ServiceID
        URL := extensionEndpointURLToDomain (some req.URL) } with
  | (some err, st1) => (errToRest err, st1)
  | (none, st1) => (none, st1)

/-- The method UpdateCredentials of the service. -/
def UpdateCredentials {σ : Type} (RFC3339 : Time → GoString)
    (registry : domain.ExtensionRegistry σ) (st : σ) (req : extension.ExtensionCredentials) :
    Reply extension.ExtensionCredentials × σ :=
  let credentials := extensionCredentialsToDomain req
  match registry.GetCredentials st
      { ID := credentials.ID
        ExtensionID := credentials.ExtensionID
        ServiceID := credentials.ServiceID } with
  | (.error err, st1) => ((none, errToRest err), st1)
  | (.ok cred, st1) =>
    let credUpdate : domain.ExtensionCredentials :=
      { toExtensionCredentialsID := cred.toExtensionCredentialsID
        Scope := util.DerefString req.Scope [cred.Scope]
        Default := util.DerefBool req.Default [cred.Default]
        Projects := cred.Projects
        Users := cred.Users
        Configuration := cred.Configuration
        Created := Time.zero
        Updated := Time.zero }
    let credUpdate :=
      if req.Configuration.isSome then { credUpdate with Configuration := req.Configuration }
      else credUpdate
    let credUpdate :=
      if req.Projects.isSome then { credUpdate with Projects := req.Projects } else credUpdate
    let credUpdate :=
      if req.Users.isSome then { credUpdate with Users := req.Users } else credUpdate
    match registry.UpdateCredentials st1 credUpdate with
    | ((some err, _), st2) => ((none, errToRest err), st2)
    | ((none, credUpdate), st2) =>
      ((some (extensionCredentialsToRest RFC3339 credUpdate), none), st2)

/-- A call of a registry method with its arguments. -/
inductive RegistryCall where
  | RegisterExtension (extRecord : domain.ExtensionRecord)
  | GetExtension (id : GoString) (withServices : Bool)
  | ListExtensions (query : domain.ExtensionQuery)
  | UpdateExtension (ext : domain.Extension)
  | RemoveExtension (id : GoString)
  | AddService (svcRecord : domain.ExtensionServiceRecord)
  | GetService (id : domain.ExtensionServiceID) (withChildren : Bool)
  | UpdateService (service : domain.ExtensionService)
  | RemoveService (id : domain.ExtensionServiceID)
  | AddEndpoint (endpoint : domain.ExtensionEndpoint)
  | GetEndpoint (id : domain.ExtensionEndpointID)
  | UpdateEndpoint (endpoint : domain.ExtensionEndpoint)
  | RemoveEndpoint (id : domain.ExtensionEndpointID)
  | AddCredentials (credentials : domain.ExtensionCredentials)
  | GetCredentials (id : domain.ExtensionCredentialsID)
  | UpdateCredentials (credentials : domain.ExtensionCredentials)
  | RemoveCredentials (id : domain.ExtensionCredentialsID)
  deriving DecidableEq, Repr

/-- A registry that behaves as `registry` and keeps, next to its state, the
list of the calls it has received, oldest first. -/
def traced {σ : Type} (registry : domain.ExtensionRegistry σ) :
    domain.ExtensionRegistry (σ × List RegistryCall) :=
  { RegisterExtension := fun st x =>
      ((registry.RegisterExtension st.1 x).1,
        ((registry.RegisterExtension st.1 x).2, st.2 ++ [.RegisterExtension x]))
    GetExtension := fun st x b =>
      ((registry.GetExtension st.1 x b).1,
        ((registry.GetExtension st.1 x b).2, st.2 ++ [.GetExtension x b]))
    ListExtensions := fun st x =>
      ((registry.ListExtensions st.1 x).1,
        ((registry.ListExtensions st.1 x).2, st.2 ++ [.ListExtensions x]))
    UpdateExtension := fun st x =>
      ((registry.UpdateExtension st.1 x).1,
        ((registry.UpdateExtension st.1 x).2, st.2 ++ [.UpdateExtension x]))
    RemoveExtension := fun st x =>
      ((registry.RemoveExtension st.1 x).1,
        ((registry.RemoveExtension st.1 x).2, st.2 ++ [.RemoveExtension x]))
    AddService := fun st x =>
      ((registry.AddService st.1 x).1,
        ((registry.AddService st.1 x).2, st.2 ++ [.AddService x]))
    GetService := fun st x b =>
      ((registry.GetService st.1 x b).1,
        ((registry.GetService st.1 x b).2, st.2 ++ [.GetService x b]))
    UpdateService := fun st x =>
      ((registry.UpdateService st.1 x).1,
        ((registry.UpdateService st.1 x).2, st.2 ++ [.UpdateService x]))
    RemoveService := fun st x =>
      ((registry.RemoveService st.1 x).1,
        ((registry.RemoveService st.1 x).2, st.2 ++ [.RemoveService x]))
    AddEndpoint := fun st x =>
      ((registry.AddEndpoint st.1 x).1,
        ((registry.AddEndpoint st.1 x).2, st.2 ++ [.AddEndpoint x]))
    GetEndpoint := fun st x =>
      ((registry.GetEndpoint st.1 x).1,
        ((registry.GetEndpoint st.1 x).2, st.2 ++ [.GetEndpoint x]))
    UpdateEndpoint := fun st x =>
      ((registry.UpdateEndpoint st.1 x).1,
        ((registry.UpdateEndpoint st.1 x).2, st.2 ++ [.UpdateEndpoint x]))
    RemoveEndpoint := fun st x =>
      ((registry.RemoveEndpoint st.1 x).1,
        ((registry.RemoveEndpoint st.1 x).2, st.2 ++ [.RemoveEndpoint x]))
    AddCredentials := fun st x =>
      ((registry.AddCredentials st.1 x).1,
        ((registry.AddCredentials st.1 x).2, st.2 ++ [.AddCredentials x]))
    GetCredentials := fun st x =>
      ((registry.GetCredentials st.1 x).1,
        ((registry.GetCredentials st.1 x).2, st.2 ++ [.GetCredentials x]))
    UpdateCredentials := fun st x =>
      ((registry.UpdateCredentials st.1 x).1,
        ((registry.UpdateCredentials st.1 x).2, st.2 ++ [.UpdateCredentials x]))
    RemoveCredentials := fun st x =>
      ((registry.RemoveCredentials st.1 x).1,
        ((registry.RemoveCredentials st.1 x).2, st.2 ++ [.RemoveCredentials x])) }

/-- Two credentials records that are identical except for the values held in
their configuration maps: every other field is equal and the configuration
maps have the same keys. -/
def sameCredentialsUpToSecrets (c1 c2 : domain.ExtensionCredentials) : Prop :=
  { c1 with Configuration := none } = { c2 with Configuration := none } ∧
    GoMap.keys c1.Configuration = GoMap.keys c2.Configuration

/-- Two service records that are identical except for the values held in the
configuration maps of their credentials. -/
def sameServiceRecordUpToSecrets (s1 s2 : domain.ExtensionServiceRecord) : Prop :=
  s1.toExtensionService = s2.toExtensionService ∧ s1.Endpoints = s2.Endpoints ∧
    List.Forall₂ sameCredentialsUpToSecrets s1.Credentials s2.Credentials

/-- Two extension records that are identical except for the values held in the
configuration maps of their credentials. -/
def sameRecordUpToSecrets (r1 r2 : domain.ExtensionRecord) : Prop :=
  r1.toExtension = r2.toExtension ∧
    List.Forall₂ sameServiceRecordUpToSecrets r1.Services r2.Services

/-- A sample credentials record holding the secret `token`. -/
def sampleCredentials (token : GoString) : domain.ExtensionCredentials :=
  { ExtensionID := ascii "ext", ServiceID := ascii "svc", ID := ascii "creds"
    Scope := ascii "global", Default := true, Projects := none, Users := none
    Configuration := some [(ascii "token", token)]
    Created := Time.zero, Updated := Time.zero }

/-- A sample extension record with one service holding `sampleCredentials token`. -/
def sampleRecord (token : GoString) : domain.ExtensionRecord :=
  { ID := ascii "ext", Product := ascii "mlflow", Version := ascii "1.0", Description := []
    Zone := ascii "eu", Configuration := none, Registered := Time.zero, Updated := Time.zero
    Services :=
      [{ ExtensionID := ascii "ext", ID := ascii "svc", Resource := ascii "s3"
         Category := ascii "store", Description := [], AuthRequired := true
         Configuration := none, Registered := Time.zero, Updated := Time.zero
         Endpoints := []
         Credentials := [sampleCredentials token] }] }

/-- A registry for examples, without state: each lookup answers with the given
record, or with the not-found error of its kind when none is given; every
other method succeeds and leaves what it is handed as it is. -/
def fixedRegistry (ext : Option domain.ExtensionRecord)
    (service : Option domain.ExtensionServiceRecord) (endpoint : Option domain.ExtensionEndpoint)
    (credentials : Option domain.ExtensionCredentials) : domain.ExtensionRegistry Unit :=
  { RegisterExtension := fun st x => (.ok x, st)
    GetExtension := fun st id _ =>
      (match ext with
        | some r => .ok r
        | none => .error (.ErrExtensionNotFound id), st)
    ListExtensions := fun st _ => (.ok ext.toList, st)
    UpdateExtension := fun st x => ((none, x), st)
    RemoveExtension := fun st _ => (none, st)
    AddService := fun st x => (.ok x, st)
    GetService := fun st id _ =>
      (match service with
        | some r => .ok r
        | none => .error (.ErrExtensionServiceNotFound id.ID), st)
    UpdateService := fun st x => ((none, x), st)
    RemoveService := fun st _ => (none, st)
    AddEndpoint := fun st x => (.ok x, st)
    GetEndpoint := fun st id =>
      (match endpoint with
        | some r => .ok r
        | none => .error (.ErrExtensionEndpointNotFound id.URL), st)
    UpdateEndpoint := fun st x => ((none, x), st)
    RemoveEndpoint := fun st _ => (none, st)
    AddCredentials := fun st x => (.ok x, st)
    GetCredentials := fun st id =>
      (match credentials with
        | some r => .ok r
        | none => .error (.ErrExtensionCredentialsNotFound id.ID), st)
    UpdateCredentials := fun st x => ((none, x), st)
    RemoveCredentials := fun st _ => (none, st) }

/-- A sample update request for the extension "ext": a new version, an
explicitly empty description and an explicitly empty configuration map. -/
def sampleExtensionUpdate : extension.Extension :=
  { ID := some (ascii "ext"), Product := none, Version := some (ascii "2.0")
    Description := some [], Zone := none, Configuration := some []
    Status := none, Services := [] }

/-- A sample update request for the credentials "creds": an explicit
default=false, an explicitly empty project list, no configuration. -/
def sampleCredentialsUpdate : extension.ExtensionCredentials :=
  { ID := some (ascii "creds"), ExtensionID := some (ascii "ext"), ServiceID := some (ascii "svc")
    Scope := none, Default := some false, Projects := some [], Users := none
    Configuration := none, Status := none }

/-- Is the error one of the four not-found types of the registry. -/
def isNotFoundError : domain.Error → Bool
  | .ErrExtensionNotFound _ => true
  | .ErrExtensionServiceNotFound _ => true
  | .ErrExtensionEndpointNotFound _ => true
  | .ErrExtensionCredentialsNotFound _ => true
  | _ => false

/-- Is the error one of the four already-exists types of the registry. -/
def isExistsError : domain.Error → Bool
  | .ErrExtensionExists _ => true
  | .ErrExtensionServiceExists _ => true
  | .ErrExtensionEndpointExists _ => true
  | .ErrExtensionCredentialsExists _ => true
  | _ => false

/-- A request naming the endpoint of service "svc" of extension "ext" at `URL`. -/
def endpointRequest (URL : GoString) : extension.ExtensionEndpoint :=
  { URL := some URL, ExtensionID := some (ascii "ext"), ServiceID := some (ascii "svc")
    Type_ := none, Configuration := none, Status := none }

/-- A sample update request for the service "svc" of the extension "ext". -/
def sampleServiceUpdate : extension.ExtensionService :=
  { ID := some (ascii "svc"), ExtensionID := some (ascii "ext"), Resource := none
    Category := some (ascii "store"), Description := none, AuthRequired := some false
    Configuration := none, Status := none, Endpoints := [], Credentials := [] }

/-- The query that supplies no field at all. -/
def emptyQuery : extension.ExtensionQuery :=
  { ExtensionID := none, Product := none, Version := none, Zone := none
    ServiceID := none, ServiceResource := none, ServiceCategory := none }

/-- Modelled from the spec: the zone rule of the registry's query resolver is
not under src/. With StrictZoneMatch and a supplied zone only an extension of
that zone matches; when no zone is supplied, zone is not filtered whatever the
flag; without the flag a supplied zone is advisory. -/
def zoneMatches (query : domain.ExtensionQuery) (ext : domain.Extension) : Bool :=
  match query.Zone with
  | none => true
  | some zone => if query.StrictZoneMatch then ext.Zone == zone else true

/-- A credentials request that supplies nothing but its identity. -/
def sampleCredentialsRequest : extension.ExtensionCredentials :=
  { ID := some (ascii "creds"), ExtensionID := some (ascii "ext"), ServiceID := some (ascii "svc")
    Scope := none, Default := none, Projects := none, Users := none
    Configuration := none, Status := none }

end svc

/-! ## The workflow manager (pkg/core/manager/workflow.go) -/

namespace workflow

/-- The type workflow.Workflow: the field Created that the manager assigns, and
the fields it does not touch, gathered in `other`. -/
structure Workflow (ρ : Type) where
  Created : Option GoString
  other : ρ

end workflow

namespace domain

/-- The interface domain.WorkflowBackend, as far as Create calls it: the method
takes the backend state and returns its error (`none` for nil), the pointed-to
workflow as it leaves it, and the next state. -/
structure WorkflowBackend (β ρ ε : Type) where
  CreateWorkflow : β → workflow.Workflow ρ → (Option ε × workflow.Workflow ρ) × β

/-- The interface domain.WorkflowStore, as far as Create calls it: the method
takes the store state and returns its pair of results and the next state. -/
structure WorkflowStore (σ ρ ε : Type) where
  AddWorkflow : σ → workflow.Workflow ρ → (Option (workflow.Workflow ρ) × Option ε) × σ

end domain

namespace manager

/-- The type workflowManager, with the two collaborators Create uses. -/
structure workflowManager (β σ ρ ε : Type) where
  workflowBackend : domain.WorkflowBackend β ρ ε
  workflowStore : domain.WorkflowStore σ ρ ε

/-- The method Create of the workflow manager; `now` is the value of
`time.Now()`, `st` the states of the backend and of the store. -/
def workflowManager.Create {β σ ρ ε : Type} (mgr : workflowManager β σ ρ ε)
    (RFC3339 : Time → GoString) (now : Time) (st : β × σ) (wf : workflow.Workflow ρ) :
    (Option (workflow.Workflow ρ) × Option ε) × (β × σ) :=
  let workflowDateCreated := RFC3339 now
  let wf := { wf with Created := some workflowDateCreated }
  match mgr.workflowBackend.CreateWorkflow st.1 wf with
  | ((some err, _), b1) => ((none, some err), (b1, st.2))
  | ((none, wf), b1) =>
    ((mgr.workflowStore.AddWorkflow st.2 wf).1, (b1, (mgr.workflowStore.AddWorkflow st.2 wf).2))

/-- A store that behaves as `store` and keeps, next to its state, the list of
the workflows AddWorkflow has been called with, oldest first. -/
def tracedStore {σ ρ ε : Type} (store : domain.WorkflowStore σ ρ ε) :
    domain.WorkflowStore (σ × List (workflow.Workflow ρ)) ρ ε :=
  { AddWorkflow := fun st wf =>
      ((store.AddWorkflow st.1 wf).1, ((store.AddWorkflow st.1 wf).2, st.2 ++ [wf])) }

/-- A backend for examples, without state: it rejects every workflow with the
error "rejected" when `reject` is set, and accepts it untouched otherwise. -/
def sampleBackend (reject : Bool) : domain.WorkflowBackend Unit GoString GoString :=
  { CreateWorkflow := fun st wf => ((if reject then some (ascii "rejected") else none, wf), st) }

/-- A store for examples: its state is the list of the stored workflows;
AddWorkflow appends and returns the workflow. -/
def sampleStore : domain.WorkflowStore (List (workflow.Workflow GoString)) GoString GoString :=
  { AddWorkflow := fun st wf => ((some wf, none), st ++ [wf]) }

/-- A sample workflow, not yet created. -/
def sampleWorkflow : workflow.Workflow GoString :=
  { Created := none, other := ascii "train" }

end manager

/-! ## Lemmas on maps -/

namespace GoMap

theorem mem_keys_setEntries (l : List (GoString × GoString)) (k v x : GoString) :
    x ∈ (setEntries l k v).map Prod.fst ↔ x = k ∨ x ∈ l.map Prod.fst := by
  induction l with
  | nil => simp [setEntries]
  | cons hd tl ih =>
    obtain ⟨k', v'⟩ := hd
    by_cases h : k' = k
    · subst h
      simp [setEntries]
    · simp only [setEntries, h, if_false, List.map_cons, List.mem_cons, ih]
      tauto

theorem snd_of_mem_setEntries (l : List (GoString × GoString)) (k v : GoString)
    (hl : ∀ kv ∈ l, kv.2 = v) : ∀ kv ∈ setEntries l k v, kv.2 = v := by
  induction l with
  | nil => simp [setEntries]
  | cons hd tl ih =>
    obtain ⟨k', v'⟩ := hd
    have htl : ∀ kv ∈ tl, kv.2 = v := fun kv hkv => hl kv (List.mem_cons_of_mem _ hkv)
    by_cases h : k' = k
    · subst h
      intro kv hkv
      simp only [setEntries, if_true, List.mem_cons] at hkv
      rcases hkv with rfl | hkv
      · rfl
      · exact htl kv hkv
    · intro kv hkv
      simp only [setEntries, h, if_false, List.mem_cons] at hkv
      rcases hkv with rfl | hkv
      · exact hl _ (List.mem_cons_self _ _)
      · exact ih htl kv hkv

theorem nodup_keys_setEntries (l : List (GoString × GoString)) (k v : GoString)
    (hl : (l.map Prod.fst).Nodup) : ((setEntries l k v).map Prod.fst).Nodup := by
  induction l with
  | nil => simp [setEntries]
  | cons hd tl ih =>
    obtain ⟨k', v'⟩ := hd
    simp only [List.map_cons, List.nodup_cons] at hl
    by_cases h : k' = k
    · subst h
      simpa [setEntries] using hl
    · simp only [setEntries, h, if_false, List.map_cons, List.nodup_cons]
      refine ⟨?_, ih hl.2⟩
      rw [mem_keys_setEntries]
      rintro (h' | h')
      · exact h h'
      · exact hl.1 h'

end GoMap

namespace GoMap

theorem mem_keys_foldl_setEntries (v x : GoString) (ks : List GoString) :
    ∀ acc : List (GoString × GoString),
      x ∈ (ks.foldl (fun result k => setEntries result k v) acc).map Prod.fst ↔
        x ∈ ks ∨ x ∈ acc.map Prod.fst := by
  induction ks with
  | nil => intro acc; simp
  | cons k ks ih =>
    intro acc
    rw [List.foldl_cons, ih, mem_keys_setEntries, List.mem_cons]
    tauto

theorem snd_of_mem_foldl_setEntries (v : GoString) (ks : List GoString) :
    ∀ acc : List (GoString × GoString), (∀ kv ∈ acc, kv.2 = v) →
      ∀ kv ∈ ks.foldl (fun result k => setEntries result k v) acc, kv.2 = v := by
  induction ks with
  | nil => intro acc h; simpa using h
  | cons k ks ih =>
    intro acc h
    rw [List.foldl_cons]
    exact ih _ (snd_of_mem_setEntries acc k v h)

theorem nodup_keys_foldl_setEntries (v : GoString) (ks : List GoString) :
    ∀ acc : List (GoString × GoString), (acc.map Prod.fst).Nodup →
      ((ks.foldl (fun result k => setEntries result k v) acc).map Prod.fst).Nodup := by
  induction ks with
  | nil => intro acc h; simpa using h
  | cons k ks ih =>
    intro acc h
    rw [List.foldl_cons]
    exact ih _ (nodup_keys_setEntries acc k v h)

theorem find_of_constant_values (v k : GoString) (l : List (GoString × GoString))
    (h : ∀ kv ∈ l, kv.2 = v) :
    (l.find? (fun kv => kv.1 == k)).map Prod.snd =
      if k ∈ l.map Prod.fst then some v else none := by
  induction l with
  | nil => simp
  | cons hd tl ih =>
    have htl : ∀ kv ∈ tl, kv.2 = v := fun kv hkv => h kv (List.mem_cons_of_mem _ hkv)
    have hhd : hd.2 = v := h hd (List.mem_cons_self _ _)
    by_cases hk : hd.1 = k
    · simp [List.find?_cons, hk, hhd]
    · have hk' : ¬ k = hd.1 := fun e => hk e.symm
      have hb : (hd.1 == k) = false := by simpa using hk
      simp only [List.find?_cons, hb, List.map_cons, List.mem_cons, hk', false_or]
      exact ih htl

end GoMap

/-! ## Obfuscation of credentials -/

/-- C1: for every configuration map, the nil map included, obfuscateCredentials
returns a non-nil map with exactly the keys of its argument, each occurring
once, in which every value is the placeholder "<hidden>": a key is bound in
the result, and then to the placeholder, exactly when it is a key of the argument. -/
theorem obfuscateCredentials_same_keys_all_hidden (c : GoMap) :
    (svc.obfuscateCredentials c).isSome = true ∧
    (∀ k, k ∈ GoMap.keys (svc.obfuscateCredentials c) ↔ k ∈ GoMap.keys c) ∧
    (GoMap.keys (svc.obfuscateCredentials c)).Nodup ∧
    (∀ kv ∈ GoMap.entries (svc.obfuscateCredentials c), kv.2 = svc.hidden) ∧
    (∀ k, GoMap.lookup (svc.obfuscateCredentials c) k =
      if k ∈ GoMap.keys c then some svc.hidden else none) ∧
    svc.hidden = ascii "<hidden>" := by
  have hvals : ∀ kv ∈ GoMap.entries (svc.obfuscateCredentials c), kv.2 = svc.hidden := by
    intro kv hkv
    exact GoMap.snd_of_mem_foldl_setEntries svc.hidden (GoMap.keys c) [] (by simp) kv hkv
  have hkeys : ∀ k, k ∈ GoMap.keys (svc.obfuscateCredentials c) ↔ k ∈ GoMap.keys c := by
    intro k
    have := GoMap.mem_keys_foldl_setEntries svc.hidden k (GoMap.keys c) []
    simpa [GoMap.keys, GoMap.entries, svc.obfuscateCredentials] using this
  refine ⟨rfl, hkeys, ?_, hvals, ?_, rfl⟩
  · exact GoMap.nodup_keys_foldl_setEntries svc.hidden (GoMap.keys c) [] (by simp)
  · intro k
    have h := GoMap.find_of_constant_values svc.hidden k _ hvals
    have hk := hkeys k
    simp only [GoMap.keys] at hk
    simp only [GoMap.lookup, h, GoMap.keys, hk]

namespace svc

theorem obfuscateCredentials_of_keys_eq (m1 m2 : GoMap) (h : GoMap.keys m1 = GoMap.keys m2) :
    obfuscateCredentials m1 = obfuscateCredentials m2 := by
  simp only [obfuscateCredentials, h]

theorem foldl_append_endpoints (f : domain.ExtensionEndpoint → extension.ExtensionEndpoint)
    (l : List domain.ExtensionEndpoint) : ∀ init : extension.ExtensionService,
      l.foldl (fun (result : extension.ExtensionService) x =>
          { result with Endpoints := result.Endpoints ++ [f x] }) init =
        { init with Endpoints := init.Endpoints ++ l.map f } := by
  induction l with
  | nil => intro init; simp
  | cons x xs ih => intro init; simp [List.foldl_cons, ih]

theorem foldl_append_credentials (f : domain.ExtensionCredentials → extension.ExtensionCredentials)
    (l : List domain.ExtensionCredentials) : ∀ init : extension.ExtensionService,
      l.foldl (fun (result : extension.ExtensionService) x =>
          { result with Credentials := result.Credentials ++ [f x] }) init =
        { init with Credentials := init.Credentials ++ l.map f } := by
  induction l with
  | nil => intro init; simp
  | cons x xs ih => intro init; simp [List.foldl_cons, ih]

theorem foldl_append_services (f : domain.ExtensionServiceRecord → extension.ExtensionService)
    (l : List domain.ExtensionServiceRecord) : ∀ init : extension.Extension,
      l.foldl (fun (result : extension.Extension) x =>
          { result with Services := result.Services ++ [f x] }) init =
        { init with Services := init.Services ++ l.map f } := by
  induction l with
  | nil => intro init; simp
  | cons x xs ih => intro init; simp [List.foldl_cons, ih]

theorem extensionServiceRecordToRest_eq (RFC3339 : Time → GoString)
    (svcRecord : domain.ExtensionServiceRecord) :
    extensionServiceRecordToRest RFC3339 svcRecord =
      { extensionServiceToRest RFC3339 svcRecord.toExtensionService with
        Endpoints := svcRecord.Endpoints.map extensionEndpointToRest
        Credentials := svcRecord.Credentials.map (extensionCredentialsToRest RFC3339) } := by
  simp [extensionServiceRecordToRest, foldl_append_endpoints, foldl_append_credentials,
    extensionServiceToRest]

theorem extensionRecordToRest_eq (RFC3339 : Time → GoString) (extRecord : domain.ExtensionRecord) :
    extensionRecordToRest RFC3339 extRecord =
      { extensionToRest RFC3339 extRecord.toExtension with
        Services := extRecord.Services.map (extensionServiceRecordToRest RFC3339) } := by
  simp [extensionRecordToRest, foldl_append_services, extensionToRest]

theorem extensionCredentialsToRest_of_same (RFC3339 : Time → GoString)
    (c1 c2 : domain.ExtensionCredentials) (h : sameCredentialsUpToSecrets c1 c2) :
    extensionCredentialsToRest RFC3339 c1 = extensionCredentialsToRest RFC3339 c2 := by
  obtain ⟨h1, h2⟩ := h
  have hc := obfuscateCredentials_of_keys_eq _ _ h2
  cases c1
  cases c2
  simp only [domain.ExtensionCredentials.mk.injEq] at h1
  simp only [extensionCredentialsToRest] at hc ⊢
  simp [h1, hc]

theorem map_eq_of_forall₂ {α β : Type} (f : α → β) (R : α → α → Prop)
    (hR : ∀ a b, R a b → f a = f b) (l1 l2 : List α) (h : List.Forall₂ R l1 l2) :
    l1.map f = l2.map f := by
  induction h with
  | nil => rfl
  | cons hab _ ih => simp [hR _ _ hab, ih]

theorem extensionServiceRecordToRest_of_same (RFC3339 : Time → GoString)
    (s1 s2 : domain.ExtensionServiceRecord) (h : sameServiceRecordUpToSecrets s1 s2) :
    extensionServiceRecordToRest RFC3339 s1 = extensionServiceRecordToRest RFC3339 s2 := by
  obtain ⟨h1, h2, h3⟩ := h
  rw [extensionServiceRecordToRest_eq, extensionServiceRecordToRest_eq, h1, h2,
    map_eq_of_forall₂ _ _ (extensionCredentialsToRest_of_same RFC3339) _ _ h3]

theorem hidden_of_mem_extensionCredentialsToRest (RFC3339 : Time → GoString)
    (c : domain.ExtensionCredentials) :
    ∀ kv ∈ GoMap.entries (extensionCredentialsToRest RFC3339 c).Configuration, kv.2 = hidden := by
  intro kv hkv
  exact GoMap.snd_of_mem_foldl_setEntries hidden (GoMap.keys c.Configuration) [] (by simp) kv hkv

end svc

/-! ## Secrets and the external view -/

/-- C2: two extension records that are identical except for the values held in
the configuration maps of their credentials have the same REST translation,
and in the translation of any record every configuration value of every
credentials entry of every service is the placeholder "<hidden>". -/
theorem extensionRecordToRest_independent_of_secrets (RFC3339 : Time → GoString)
    (r1 r2 : domain.ExtensionRecord) (h : svc.sameRecordUpToSecrets r1 r2) :
    svc.extensionRecordToRest RFC3339 r1 = svc.extensionRecordToRest RFC3339 r2 ∧
    (∀ service ∈ (svc.extensionRecordToRest RFC3339 r1).Services,
      ∀ credentials ∈ service.Credentials,
        ∀ kv ∈ GoMap.entries credentials.Configuration, kv.2 = svc.hidden) := by
  obtain ⟨h1, h2⟩ := h
  constructor
  · rw [svc.extensionRecordToRest_eq, svc.extensionRecordToRest_eq, h1,
      svc.map_eq_of_forall₂ _ _ (svc.extensionServiceRecordToRest_of_same RFC3339) _ _ h2]
  · intro service hs credentials hc
    rw [svc.extensionRecordToRest_eq] at hs
    simp only [svc.extensionToRest, List.mem_map] at hs
    obtain ⟨svcRecord, _, rfl⟩ := hs
    rw [svc.extensionServiceRecordToRest_eq] at hc
    simp only [List.mem_map] at hc
    obtain ⟨c, _, rfl⟩ := hc
    exact svc.hidden_of_mem_extensionCredentialsToRest RFC3339 c

/-- C2 at two sample records whose only difference is the stored token. -/
theorem extensionRecordToRest_independent_of_secrets_witness :
    svc.sameRecordUpToSecrets (svc.sampleRecord (ascii "s3cr3t"))
      (svc.sampleRecord (ascii "other")) ∧
    svc.sampleRecord (ascii "s3cr3t") ≠ svc.sampleRecord (ascii "other") ∧
    (svc.extensionRecordToRest (fun _ => []) (svc.sampleRecord (ascii "s3cr3t")) =
        svc.extensionRecordToRest (fun _ => []) (svc.sampleRecord (ascii "other")) ∧
      (∀ service ∈
          (svc.extensionRecordToRest (fun _ => []) (svc.sampleRecord (ascii "s3cr3t"))).Services,
        ∀ credentials ∈ service.Credentials,
          ∀ kv ∈ GoMap.entries credentials.Configuration, kv.2 = svc.hidden)) :=
  have h : svc.sameRecordUpToSecrets (svc.sampleRecord (ascii "s3cr3t"))
      (svc.sampleRecord (ascii "other")) :=
    ⟨rfl, List.Forall₂.cons ⟨rfl, rfl, List.Forall₂.cons ⟨rfl, rfl⟩ List.Forall₂.nil⟩
      List.Forall₂.nil⟩
  ⟨h, by decide, extensionRecordToRest_independent_of_secrets (fun _ => []) _ _ h⟩

/-! ## Merge-patch updates -/

/-- C3: when the registry lookup of UpdateExtension returns a stored extension,
the service calls the registry exactly twice, the lookup and then
registry.UpdateExtension, and the Extension handed to the latter has the ID of
the request, for each of Product, Version, Description and Zone the value of
the request when the field is present (the empty string included) and the
stored value when it is absent, and as Configuration the map of the request
when that is non-nil (the empty map included) and the stored map otherwise. -/
theorem UpdateExtension_merge_patch {σ : Type} (RFC3339 : Time → GoString)
    (registry : domain.ExtensionRegistry σ) (st st1 : σ) (req : extension.Extension)
    (extRecord : domain.ExtensionRecord)
    (h : registry.GetExtension st (util.DerefString req.ID []) false = (.ok extRecord, st1)) :
    ∃ extUpdate : domain.Extension,
      (svc.UpdateExtension RFC3339 (svc.traced registry) (st, []) req).2.2 =
        [.GetExtension (util.DerefString req.ID []) false, .UpdateExtension extUpdate] ∧
      svc.UpdateExtension RFC3339 registry st req =
        (match registry.UpdateExtension st1 extUpdate with
          | ((some err, _), st2) => ((none, svc.errToRest err), st2)
          | ((none, ext), st2) => ((some (svc.extensionToRest RFC3339 ext), none), st2)) ∧
      extUpdate.ID = util.DerefString req.ID [] ∧
      (∀ v, req.Product = some v → extUpdate.Product = v) ∧
      (req.Product = none → extUpdate.Product = extRecord.Product) ∧
      (∀ v, req.Version = some v → extUpdate.Version = v) ∧
      (req.Version = none → extUpdate.Version = extRecord.Version) ∧
      (∀ v, req.Description = some v → extUpdate.Description = v) ∧
      (req.Description = none → extUpdate.Description = extRecord.Description) ∧
      (∀ v, req.Zone = some v → extUpdate.Zone = v) ∧
      (req.Zone = none → extUpdate.Zone = extRecord.Zone) ∧
      (∀ m, req.Configuration = some m → extUpdate.Configuration = some m) ∧
      (req.Configuration = none → extUpdate.Configuration = extRecord.Configuration) := by
  refine ⟨
    { ID := util.DerefString req.ID []
      Product := util.DerefString req.Product [extRecord.Product]
      Version := util.DerefString req.Version [extRecord.Version]
      Description := util.DerefString req.Description [extRecord.Description]
      Zone := util.DerefString req.Zone [extRecord.Zone]
      Configuration := if req.Configuration.isSome then req.Configuration
        else extRecord.Configuration
      Registered := Time.zero
      Updated := Time.zero }, ?_, ?_, rfl, ?_, ?_, ?_, ?_, ?_, ?_, ?_, ?_, ?_, ?_⟩
  · simp only [svc.UpdateExtension, svc.traced, svc.extensionToDomain, h, List.nil_append]
    split <;> rename_i heq <;> simp only [Prod.mk.injEq] at heq <;>
      obtain ⟨_, rfl⟩ := heq <;> split <;> simp_all
  · simp only [svc.UpdateExtension, svc.extensionToDomain, h]
    cases req.Configuration <;> rfl
  all_goals first
    | (intro v hv; simp [hv, util.DerefString])
    | (intro hv; simp [hv, util.DerefString])

/-- C3 at the sample update of the sample record: the stored product and zone
are kept, the version is replaced, the description and the configuration are
overwritten by the explicitly empty values. -/
theorem UpdateExtension_merge_patch_witness :
    (svc.fixedRegistry (some (svc.sampleRecord [])) none none none).GetExtension ()
        (util.DerefString svc.sampleExtensionUpdate.ID []) false =
      (.ok (svc.sampleRecord []), ()) ∧
    ∃ extUpdate : domain.Extension,
      (svc.UpdateExtension (fun _ => [])
          (svc.traced (svc.fixedRegistry (some (svc.sampleRecord [])) none none none))
          ((), []) svc.sampleExtensionUpdate).2.2 =
        [.GetExtension (util.DerefString svc.sampleExtensionUpdate.ID []) false,
          .UpdateExtension extUpdate] ∧
      svc.UpdateExtension (fun _ => [])
          (svc.fixedRegistry (some (svc.sampleRecord [])) none none none) ()
          svc.sampleExtensionUpdate =
        (match (svc.fixedRegistry (some (svc.sampleRecord [])) none none none).UpdateExtension ()
            extUpdate with
          | ((some err, _), st2) => ((none, svc.errToRest err), st2)
          | ((none, ext), st2) => ((some (svc.extensionToRest (fun _ => []) ext), none), st2)) ∧
      extUpdate.ID = util.DerefString svc.sampleExtensionUpdate.ID [] ∧
      (∀ v, svc.sampleExtensionUpdate.Product = some v → extUpdate.Product = v) ∧
      (svc.sampleExtensionUpdate.Product = none →
        extUpdate.Product = (svc.sampleRecord []).Product) ∧
      (∀ v, svc.sampleExtensionUpdate.Version = some v → extUpdate.Version = v) ∧
      (svc.sampleExtensionUpdate.Version = none →
        extUpdate.Version = (svc.sampleRecord []).Version) ∧
      (∀ v, svc.sampleExtensionUpdate.Description = some v → extUpdate.Description = v) ∧
      (svc.sampleExtensionUpdate.Description = none →
        extUpdate.Description = (svc.sampleRecord []).Description) ∧
      (∀ v, svc.sampleExtensionUpdate.Zone = some v → extUpdate.Zone = v) ∧
      (svc.sampleExtensionUpdate.Zone = none → extUpdate.Zone = (svc.sampleRecord []).Zone) ∧
      (∀ m, svc.sampleExtensionUpdate.Configuration = some m →
        extUpdate.Configuration = some m) ∧
      (svc.sampleExtensionUpdate.Configuration = none →
        extUpdate.Configuration = (svc.sampleRecord []).Configuration) :=
  ⟨rfl, UpdateExtension_merge_patch (fun _ => [])
    (svc.fixedRegistry (some (svc.sampleRecord [])) none none none) () ()
    svc.sampleExtensionUpdate (svc.sampleRecord []) rfl⟩

/-- C4: when the registry lookup of UpdateCredentials returns a stored record,
the service calls the registry exactly twice, the lookup and then
registry.UpdateCredentials, and the record handed to the latter keeps the
stored identity, takes Scope and Default from the request when present (an
explicit false included) and from the stored record otherwise, and takes each
of Projects, Users and Configuration from the request when it is non-nil (the
empty list or map included) and from the stored record, values unchanged, when
it is nil; every configuration value of a record returned to the caller is the
placeholder "<hidden>". -/
theorem UpdateCredentials_merge_patch_keeps_secrets {σ : Type} (RFC3339 : Time → GoString)
    (registry : domain.ExtensionRegistry σ) (st st1 : σ) (req : extension.ExtensionCredentials)
    (cred : domain.ExtensionCredentials)
    (h : registry.GetCredentials st
        { ID := util.DerefString req.ID []
          ExtensionID := util.DerefString req.ExtensionID []
          ServiceID := util.DerefString req.ServiceID [] } = (.ok cred, st1)) :
    ∃ credUpdate : domain.ExtensionCredentials,
      (svc.UpdateCredentials RFC3339 (svc.traced registry) (st, []) req).2.2 =
        [.GetCredentials
            { ID := util.DerefString req.ID []
              ExtensionID := util.DerefString req.ExtensionID []
              ServiceID := util.DerefString req.ServiceID [] },
          .UpdateCredentials credUpdate] ∧
      svc.UpdateCredentials RFC3339 registry st req =
        (match registry.UpdateCredentials st1 credUpdate with
          | ((some err, _), st2) => ((none, svc.errToRest err), st2)
          | ((none, c), st2) => ((some (svc.extensionCredentialsToRest RFC3339 c), none), st2)) ∧
      credUpdate.toExtensionCredentialsID = cred.toExtensionCredentialsID ∧
      (∀ v, req.Scope = some v → credUpdate.Scope = v) ∧
      (req.Scope = none → credUpdate.Scope = cred.Scope) ∧
      (∀ b, req.Default = some b → credUpdate.Default = b) ∧
      (req.Default = none → credUpdate.Default = cred.Default) ∧
      (∀ l, req.Projects = some l → credUpdate.Projects = some l) ∧
      (req.Projects = none → credUpdate.Projects = cred.Projects) ∧
      (∀ l, req.Users = some l → credUpdate.Users = some l) ∧
      (req.Users = none → credUpdate.Users = cred.Users) ∧
      (∀ m, req.Configuration = some m → credUpdate.Configuration = some m) ∧
      (req.Configuration = none → credUpdate.Configuration = cred.Configuration) ∧
      (∀ res, (svc.UpdateCredentials RFC3339 registry st req).1.1 = some res →
        ∀ kv ∈ GoMap.entries res.Configuration, kv.2 = svc.hidden) := by
  refine ⟨
    { toExtensionCredentialsID := cred.toExtensionCredentialsID
      Scope := util.DerefString req.Scope [cred.Scope]
      Default := util.DerefBool req.Default [cred.Default]
      Projects := if req.Projects.isSome then req.Projects else cred.Projects
      Users := if req.Users.isSome then req.Users else cred.Users
      Configuration := if req.Configuration.isSome then req.Configuration
        else cred.Configuration
      Created := Time.zero
      Updated := Time.zero }, ?_, ?_, rfl, ?_, ?_, ?_, ?_, ?_, ?_, ?_, ?_, ?_, ?_, ?_⟩
  · simp only [svc.UpdateCredentials, svc.traced, svc.extensionCredentialsToDomain, h,
      List.nil_append]
    cases req.Configuration <;> cases req.Projects <;> cases req.Users <;>
      simp only [Option.isSome, if_true, Bool.false_eq_true, if_false] <;>
      split <;> rename_i heq <;> simp only [Prod.mk.injEq] at heq <;>
      obtain ⟨_, rfl⟩ := heq <;> rfl
  · simp only [svc.UpdateCredentials, svc.extensionCredentialsToDomain, h]
    cases req.Configuration <;> cases req.Projects <;> cases req.Users <;> rfl
  · intro v hv; simp [hv, util.DerefString]
  · intro hv; simp [hv, util.DerefString]
  · intro v hv; simp [hv, util.DerefBool]
  · intro hv; simp [hv, util.DerefBool]
  · intro v hv; simp [hv]
  · intro hv; simp [hv]
  · intro v hv; simp [hv]
  · intro hv; simp [hv]
  · intro v hv; simp [hv]
  · intro hv; simp [hv]
  · intro res hres kv hkv
    simp only [svc.UpdateCredentials, svc.extensionCredentialsToDomain, h] at hres
    split at hres
    · simp at hres
    · simp only [Option.some.injEq] at hres
      subst hres
      exact svc.hidden_of_mem_extensionCredentialsToRest RFC3339 _ kv hkv

/-- C4 at the sample update of the sample credentials: the explicit
default=false and the explicitly empty project list overwrite, the stored scope,
users and configuration, secret included, are handed on. -/
theorem UpdateCredentials_merge_patch_keeps_secrets_witness :
    (svc.fixedRegistry none none none (some (svc.sampleCredentials (ascii "s3cr3t")))).GetCredentials
        ()
        { ID := util.DerefString svc.sampleCredentialsUpdate.ID []
          ExtensionID := util.DerefString svc.sampleCredentialsUpdate.ExtensionID []
          ServiceID := util.DerefString svc.sampleCredentialsUpdate.ServiceID [] } =
      (.ok (svc.sampleCredentials (ascii "s3cr3t")), ()) ∧
    ∃ credUpdate : domain.ExtensionCredentials,
      (svc.UpdateCredentials (fun _ => [])
          (svc.traced
            (svc.fixedRegistry none none none (some (svc.sampleCredentials (ascii "s3cr3t")))))
          ((), []) svc.sampleCredentialsUpdate).2.2 =
        [.GetCredentials
            { ID := util.DerefString svc.sampleCredentialsUpdate.ID []
              ExtensionID := util.DerefString svc.sampleCredentialsUpdate.ExtensionID []
              ServiceID := util.DerefString svc.sampleCredentialsUpdate.ServiceID [] },
          .UpdateCredentials credUpdate] ∧
      svc.UpdateCredentials (fun _ => [])
          (svc.fixedRegistry none none none (some (svc.sampleCredentials (ascii "s3cr3t")))) ()
          svc.sampleCredentialsUpdate =
        (match (svc.fixedRegistry none none none
            (some (svc.sampleCredentials (ascii "s3cr3t")))).UpdateCredentials () credUpdate with
          | ((some err, _), st2) => ((none, svc.errToRest err), st2)
          | ((none, c), st2) =>
            ((some (svc.extensionCredentialsToRest (fun _ => []) c), none), st2)) ∧
      credUpdate.toExtensionCredentialsID =
        (svc.sampleCredentials (ascii "s3cr3t")).toExtensionCredentialsID ∧
      (∀ v, svc.sampleCredentialsUpdate.Scope = some v → credUpdate.Scope = v) ∧
      (svc.sampleCredentialsUpdate.Scope = none →
        credUpdate.Scope = (svc.sampleCredentials (ascii "s3cr3t")).Scope) ∧
      (∀ b, svc.sampleCredentialsUpdate.Default = some b → credUpdate.Default = b) ∧
      (svc.sampleCredentialsUpdate.Default = none →
        credUpdate.Default = (svc.sampleCredentials (ascii "s3cr3t")).Default) ∧
      (∀ l, svc.sampleCredentialsUpdate.Projects = some l → credUpdate.Projects = some l) ∧
      (svc.sampleCredentialsUpdate.Projects = none →
        credUpdate.Projects = (svc.sampleCredentials (ascii "s3cr3t")).Projects) ∧
      (∀ l, svc.sampleCredentialsUpdate.Users = some l → credUpdate.Users = some l) ∧
      (svc.sampleCredentialsUpdate.Users = none →
        credUpdate.Users = (svc.sampleCredentials (ascii "s3cr3t")).Users) ∧
      (∀ m, svc.sampleCredentialsUpdate.Configuration = some m →
        credUpdate.Configuration = some m) ∧
      (svc.sampleCredentialsUpdate.Configuration = none →
        credUpdate.Configuration = (svc.sampleCredentials (ascii "s3cr3t")).Configuration) ∧
      (∀ res,
        (svc.UpdateCredentials (fun _ => [])
          (svc.fixedRegistry none none none (some (svc.sampleCredentials (ascii "s3cr3t")))) ()
          svc.sampleCredentialsUpdate).1.1 = some res →
        ∀ kv ∈ GoMap.entries res.Configuration, kv.2 = svc.hidden) :=
  ⟨rfl, UpdateCredentials_merge_patch_keeps_secrets (fun _ => [])
    (svc.fixedRegistry none none none (some (svc.sampleCredentials (ascii "s3cr3t")))) () ()
    svc.sampleCredentialsUpdate (svc.sampleCredentials (ascii "s3cr3t")) rfl⟩

/-! ## The URL of an endpoint -/

namespace url

theorem countEscapes_of_no_percent (s : GoString) (h : 37 ∉ s) : countEscapes s = .ok 0 := by
  induction s with
  | nil => rfl
  | cons c rest ih =>
    simp only [List.mem_cons, not_or] at h
    have hc : ¬ c = 37 := fun e => h.1 e.symm
    rw [countEscapes.eq_def]
    simp only [hc, if_false]
    exact ih h.2

theorem PathUnescape_of_no_percent (s : GoString) (h : 37 ∉ s) : PathUnescape s = (s, none) := by
  simp [PathUnescape, countEscapes_of_no_percent s h]

theorem PathUnescape_of_bad_escape (s e : GoString) (h : countEscapes s = .error e) :
    PathUnescape s = ([], some e) := by
  simp [PathUnescape, h]

end url

namespace svc

theorem extensionEndpointURLToDomain_of_no_percent (u : GoString) (h : 37 ∉ u) :
    extensionEndpointURLToDomain (some u) = u := by
  simp [extensionEndpointURLToDomain, util.DerefString, url.PathUnescape_of_no_percent u h]

theorem extensionEndpointURLToDomain_of_bad_escape (u e : GoString)
    (h : url.countEscapes u = .error e) : extensionEndpointURLToDomain (some u) = [] := by
  simp [extensionEndpointURLToDomain, util.DerefString, url.PathUnescape_of_bad_escape u e h]

end svc

/-- C5: AddEndpoint registers, and GetEndpoint and DeleteEndpoint look up, the
URL decoded once; the lookup of UpdateEndpoint carries the URL decoded twice.
For the request URL "%2541" the first three use "%41" and UpdateEndpoint looks
up "A", so the endpoint added under that URL is not the one an update naming
the same URL addresses. -/
theorem UpdateEndpoint_lookup_decodes_twice {σ : Type} (registry : domain.ExtensionRegistry σ)
    (st : σ) (u : GoString) :
    (svc.AddEndpoint (svc.traced registry) (st, []) (svc.endpointRequest u)).2.2 =
      [.AddEndpoint
        { ExtensionID := ascii "ext", ServiceID := ascii "svc"
          URL := svc.extensionEndpointURLToDomain (some u)
          Type_ := domain.EETExternal, Configuration := none }] ∧
    (svc.GetEndpoint (svc.traced registry) (st, [])
        { ExtensionID := ascii "ext", ServiceID := ascii "svc", URL := u }).2.2 =
      [.GetEndpoint
        { ExtensionID := ascii "ext", ServiceID := ascii "svc"
          URL := svc.extensionEndpointURLToDomain (some u) }] ∧
    (svc.DeleteEndpoint (svc.traced registry) (st, [])
        { ExtensionID := ascii "ext", ServiceID := ascii "svc", URL := u }).2.2 =
      [.RemoveEndpoint
        { ExtensionID := ascii "ext", ServiceID := ascii "svc"
          URL := svc.extensionEndpointURLToDomain (some u) }] ∧
    (svc.UpdateEndpoint (svc.traced registry) (st, []) (svc.endpointRequest u)).2.2.head? =
      some (.GetEndpoint
        { ExtensionID := ascii "ext", ServiceID := ascii "svc"
          URL := svc.extensionEndpointURLToDomain
            (some (svc.extensionEndpointURLToDomain (some u))) }) ∧
    svc.extensionEndpointURLToDomain (some (ascii "%2541")) = ascii "%41" ∧
    svc.extensionEndpointURLToDomain
      (some (svc.extensionEndpointURLToDomain (some (ascii "%2541")))) = ascii "A" := by
  refine ⟨?_, ?_, ?_, ?_, by decide, by decide⟩
  · simp only [svc.AddEndpoint, svc.traced, svc.endpointRequest, svc.extensionEndpointToDomain,
      util.DerefString, List.nil_append]
    split <;> rename_i heq <;> simp only [Prod.mk.injEq] at heq <;> obtain ⟨_, rfl⟩ := heq <;> rfl
  · simp only [svc.GetEndpoint, svc.traced, List.nil_append]
    split <;> rename_i heq <;> simp only [Prod.mk.injEq] at heq <;> obtain ⟨_, rfl⟩ := heq <;> rfl
  · simp only [svc.DeleteEndpoint, svc.traced, List.nil_append]
    split <;> rename_i heq <;> simp only [Prod.mk.injEq] at heq <;> obtain ⟨_, rfl⟩ := heq <;> rfl
  · simp only [svc.UpdateEndpoint, svc.traced, svc.endpointRequest, svc.extensionEndpointToDomain,
      util.DerefString, List.nil_append]
    split <;> rename_i heq <;> simp only [Prod.mk.injEq] at heq <;> obtain ⟨_, rfl⟩ := heq
    · rfl
    · split <;> rename_i heq2 <;> simp only [Prod.mk.injEq] at heq2 <;>
        obtain ⟨_, rfl⟩ := heq2 <;> rfl

/-- C6: on a URL with a malformed percent-escape extensionEndpointURLToDomain
returns the empty string, not the URL: it does so on "%zz" and on "100%", two
different URLs that thus get the same endpoint identity. -/
theorem extensionEndpointURLToDomain_malformed_escape_gives_empty :
    svc.extensionEndpointURLToDomain (some (ascii "%zz")) = [] ∧
    svc.extensionEndpointURLToDomain (some (ascii "100%")) = [] ∧
    ascii "%zz" ≠ ascii "100%" ∧
    url.PathUnescape (ascii "%zz") = ([], some (ascii "%zz")) ∧
    url.PathUnescape (ascii "100%") = ([], some (ascii "%")) := by
  decide

/-! ## Errors -/

/-- C7: errToRest returns a non-nil service error for every error of the
registry; the service error wraps that error, and it is NotFound exactly for
the four not-found types, Conflict exactly for the four already-exists types
and BadRequest exactly for every other error. -/
theorem errToRest_classifies (err : domain.Error) :
    ∃ e : extension.ServiceError, svc.errToRest err = some e ∧ e.cause = err ∧
      (e.Name = .NotFound ↔ svc.isNotFoundError err = true) ∧
      (e.Name = .Conflict ↔ svc.isExistsError err = true) ∧
      (e.Name = .BadRequest ↔
        (svc.isNotFoundError err = false ∧ svc.isExistsError err = false)) ∧
      (svc.isNotFoundError err = true ↔
        ∃ msg, err = .ErrExtensionNotFound msg ∨ err = .ErrExtensionServiceNotFound msg ∨
          err = .ErrExtensionEndpointNotFound msg ∨ err = .ErrExtensionCredentialsNotFound msg) ∧
      (svc.isExistsError err = true ↔
        ∃ msg, err = .ErrExtensionExists msg ∨ err = .ErrExtensionServiceExists msg ∨
          err = .ErrExtensionEndpointExists msg ∨ err = .ErrExtensionCredentialsExists msg) := by
  cases err <;>
    simp [svc.errToRest, svc.isNotFoundError, svc.isExistsError, extension.MakeNotFound,
      extension.MakeConflict, extension.MakeBadRequest]

namespace svc

theorem errToRest_of_isNotFoundError (err : domain.Error) (h : isNotFoundError err = true) :
    errToRest err = some (extension.MakeNotFound err) := by
  cases err <;> simp_all [errToRest, isNotFoundError]

end svc

/-- C8: for each of UpdateExtension, UpdateService, UpdateEndpoint and
UpdateCredentials, when the registry lookup of the target returns an error of
a not-found type, the method returns no result and the NotFound service error
built from that error, the registry is left in the state the lookup left it
in, and the lookup is the only call the registry receives: its Update method
is not called. -/
theorem update_of_missing_target_only_looks_up {σ : Type} (RFC3339 : Time → GoString)
    (registry : domain.ExtensionRegistry σ) :
    (∀ (st st1 : σ) (req : extension.Extension) (err : domain.Error),
      svc.isNotFoundError err = true →
      registry.GetExtension st (util.DerefString req.ID []) false = (.error err, st1) →
      svc.UpdateExtension RFC3339 registry st req =
          ((none, some (extension.MakeNotFound err)), st1) ∧
        (svc.UpdateExtension RFC3339 (svc.traced registry) (st, []) req).2.2 =
          [.GetExtension (util.DerefString req.ID []) false]) ∧
    (∀ (st st1 : σ) (req : extension.ExtensionService) (err : domain.Error),
      svc.isNotFoundError err = true →
      registry.GetService st
          { ID := util.DerefString req.ID []
            ExtensionID := util.DerefString req.ExtensionID [] } false = (.error err, st1) →
      svc.UpdateService RFC3339 registry st req =
          ((none, some (extension.MakeNotFound err)), st1) ∧
        (svc.UpdateService RFC3339 (svc.traced registry) (st, []) req).2.2 =
          [.GetService
            { ID := util.DerefString req.ID []
              ExtensionID := util.DerefString req.ExtensionID [] } false]) ∧
    (∀ (st st1 : σ) (req : extension.ExtensionEndpoint) (err : domain.Error),
      svc.isNotFoundError err = true →
      registry.GetEndpoint st
          { URL := svc.extensionEndpointURLToDomain
              (some (svc.extensionEndpointURLToDomain req.URL))
            ExtensionID := util.DerefString req.ExtensionID []
            ServiceID := util.DerefString req.ServiceID [] } = (.error err, st1) →
      svc.UpdateEndpoint registry st req = ((none, some (extension.MakeNotFound err)), st1) ∧
        (svc.UpdateEndpoint (svc.traced registry) (st, []) req).2.2 =
          [.GetEndpoint
            { URL := svc.extensionEndpointURLToDomain
                (some (svc.extensionEndpointURLToDomain req.URL))
              ExtensionID := util.DerefString req.ExtensionID []
              ServiceID := util.DerefString req.ServiceID [] }]) ∧
    (∀ (st st1 : σ) (req : extension.ExtensionCredentials) (err : domain.Error),
      svc.isNotFoundError err = true →
      registry.GetCredentials st
          { ID := util.DerefString req.ID []
            ExtensionID := util.DerefString req.ExtensionID []
            ServiceID := util.DerefString req.ServiceID [] } = (.error err, st1) →
      svc.UpdateCredentials RFC3339 registry st req =
          ((none, some (extension.MakeNotFound err)), st1) ∧
        (svc.UpdateCredentials RFC3339 (svc.traced registry) (st, []) req).2.2 =
          [.GetCredentials
            { ID := util.DerefString req.ID []
              ExtensionID := util.DerefString req.ExtensionID []
              ServiceID := util.DerefString req.ServiceID [] }]) := by
  refine ⟨?_, ?_, ?_, ?_⟩
  · intro st st1 req err herr h
    constructor
    · simp only [svc.UpdateExtension, svc.extensionToDomain, h,
        svc.errToRest_of_isNotFoundError err herr]
    · simp only [svc.UpdateExtension, svc.traced, svc.extensionToDomain, h, List.nil_append]
  · intro st st1 req err herr h
    constructor
    · simp only [svc.UpdateService, svc.extensionServiceToDomain, h,
        svc.errToRest_of_isNotFoundError err herr]
    · simp only [svc.UpdateService, svc.traced, svc.extensionServiceToDomain, h,
        List.nil_append]
  · intro st st1 req err herr h
    constructor
    · simp only [svc.UpdateEndpoint, svc.extensionEndpointToDomain, h,
        svc.errToRest_of_isNotFoundError err herr]
    · simp only [svc.UpdateEndpoint, svc.traced, svc.extensionEndpointToDomain, h,
        List.nil_append]
  · intro st st1 req err herr h
    constructor
    · simp only [svc.UpdateCredentials, svc.extensionCredentialsToDomain, h,
        svc.errToRest_of_isNotFoundError err herr]
    · simp only [svc.UpdateCredentials, svc.traced, svc.extensionCredentialsToDomain, h,
        List.nil_append]

/-- C8 at the registry that stores nothing: each of the four updates returns
the NotFound error of the failed lookup and calls the registry once. -/
theorem update_of_missing_target_only_looks_up_witness :
    (svc.isNotFoundError (.ErrExtensionNotFound (ascii "ext")) = true ∧
      (svc.fixedRegistry none none none none).GetExtension ()
          (util.DerefString svc.sampleExtensionUpdate.ID []) false =
        (.error (.ErrExtensionNotFound (ascii "ext")), ()) ∧
      svc.UpdateExtension (fun _ => []) (svc.fixedRegistry none none none none) ()
          svc.sampleExtensionUpdate =
        ((none, some (extension.MakeNotFound (.ErrExtensionNotFound (ascii "ext")))), ()) ∧
      (svc.UpdateExtension (fun _ => []) (svc.traced (svc.fixedRegistry none none none none))
          ((), []) svc.sampleExtensionUpdate).2.2 =
        [.GetExtension (util.DerefString svc.sampleExtensionUpdate.ID []) false]) ∧
    (svc.UpdateService (fun _ => []) (svc.fixedRegistry none none none none) ()
          svc.sampleServiceUpdate =
        ((none, some (extension.MakeNotFound (.ErrExtensionServiceNotFound (ascii "svc")))), ()) ∧
      (svc.UpdateService (fun _ => []) (svc.traced (svc.fixedRegistry none none none none))
          ((), []) svc.sampleServiceUpdate).2.2 =
        [.GetService
          { ID := util.DerefString svc.sampleServiceUpdate.ID []
            ExtensionID := util.DerefString svc.sampleServiceUpdate.ExtensionID [] } false]) ∧
    (svc.UpdateEndpoint (svc.fixedRegistry none none none none) ()
          (svc.endpointRequest (ascii "http://host/a%20b")) =
        ((none, some (extension.MakeNotFound
          (.ErrExtensionEndpointNotFound (ascii "http://host/a b")))), ()) ∧
      (svc.UpdateEndpoint (svc.traced (svc.fixedRegistry none none none none))
          ((), []) (svc.endpointRequest (ascii "http://host/a%20b"))).2.2 =
        [.GetEndpoint
          { URL := svc.extensionEndpointURLToDomain
              (some (svc.extensionEndpointURLToDomain
                (svc.endpointRequest (ascii "http://host/a%20b")).URL))
            ExtensionID :=
              util.DerefString (svc.endpointRequest (ascii "http://host/a%20b")).ExtensionID []
            ServiceID :=
              util.DerefString (svc.endpointRequest (ascii "http://host/a%20b")).ServiceID [] }]) ∧
    (svc.UpdateCredentials (fun _ => []) (svc.fixedRegistry none none none none) ()
          svc.sampleCredentialsUpdate =
        ((none, some (extension.MakeNotFound
          (.ErrExtensionCredentialsNotFound (ascii "creds")))), ()) ∧
      (svc.UpdateCredentials (fun _ => []) (svc.traced (svc.fixedRegistry none none none none))
          ((), []) svc.sampleCredentialsUpdate).2.2 =
        [.GetCredentials
          { ID := util.DerefString svc.sampleCredentialsUpdate.ID []
            ExtensionID := util.DerefString svc.sampleCredentialsUpdate.ExtensionID []
            ServiceID := util.DerefString svc.sampleCredentialsUpdate.ServiceID [] }]) :=
  ⟨⟨rfl, rfl,
      (update_of_missing_target_only_looks_up (fun _ => [])
        (svc.fixedRegistry none none none none)).1 () () svc.sampleExtensionUpdate
        (.ErrExtensionNotFound (ascii "ext")) rfl rfl⟩,
    (update_of_missing_target_only_looks_up (fun _ => [])
      (svc.fixedRegistry none none none none)).2.1 () () svc.sampleServiceUpdate
      (.ErrExtensionServiceNotFound (ascii "svc")) rfl rfl,
    (update_of_missing_target_only_looks_up (fun _ => [])
      (svc.fixedRegistry none none none none)).2.2.1 () ()
      (svc.endpointRequest (ascii "http://host/a%20b"))
      (.ErrExtensionEndpointNotFound (ascii "http://host/a b")) rfl rfl,
    (update_of_missing_target_only_looks_up (fun _ => [])
      (svc.fixedRegistry none none none none)).2.2.2 () () svc.sampleCredentialsUpdate
      (.ErrExtensionCredentialsNotFound (ascii "creds")) rfl rfl⟩

/-! ## Queries -/

/-- C9: extensionQueryToDomain sets StrictZoneMatch to true for every query and
copies ExtensionID, Product, Version (as VersionConstraints), Zone, ServiceID,
ServiceResource and ServiceCategory as they are, an absent field staying
absent; ListExtensions hands exactly this query to the registry; a query
without a zone has no zone there and matches an extension of any zone. -/
theorem extensionQueryToDomain_fields_and_strict_zone (q : extension.ExtensionQuery) :
    (svc.extensionQueryToDomain q).StrictZoneMatch = true ∧
    (svc.extensionQueryToDomain q).ExtensionID = q.ExtensionID ∧
    (svc.extensionQueryToDomain q).Product = q.Product ∧
    (svc.extensionQueryToDomain q).VersionConstraints = q.Version ∧
    (svc.extensionQueryToDomain q).Zone = q.Zone ∧
    (svc.extensionQueryToDomain q).ServiceID = q.ServiceID ∧
    (svc.extensionQueryToDomain q).ServiceResource = q.ServiceResource ∧
    (svc.extensionQueryToDomain q).ServiceCategory = q.ServiceCategory ∧
    (∀ (σ : Type) (RFC3339 : Time → GoString) (registry : domain.ExtensionRegistry σ) (st : σ),
      (svc.ListExtensions RFC3339 (svc.traced registry) (st, []) q).2.2 =
        [.ListExtensions (svc.extensionQueryToDomain q)]) ∧
    (q.Zone = none →
      (svc.extensionQueryToDomain q).Zone = none ∧
        ∀ ext : domain.Extension, svc.zoneMatches (svc.extensionQueryToDomain q) ext = true) := by
  refine ⟨rfl, rfl, rfl, rfl, rfl, rfl, rfl, rfl, ?_, ?_⟩
  · intro σ RFC3339 registry st
    simp only [svc.ListExtensions, svc.traced, List.nil_append]
    split <;> rename_i heq <;> simp only [Prod.mk.injEq] at heq <;> obtain ⟨_, rfl⟩ := heq <;> rfl
  · intro hz
    refine ⟨hz, fun ext => ?_⟩
    simp [svc.zoneMatches, svc.extensionQueryToDomain, hz]

/-- C9 at the query that supplies no field. -/
theorem extensionQueryToDomain_fields_and_strict_zone_witness :
    svc.emptyQuery.Zone = none ∧
    (svc.extensionQueryToDomain svc.emptyQuery).StrictZoneMatch = true ∧
    (svc.extensionQueryToDomain svc.emptyQuery).Zone = none ∧
    (∀ ext : domain.Extension,
      svc.zoneMatches (svc.extensionQueryToDomain svc.emptyQuery) ext = true) :=
  ⟨rfl, (extensionQueryToDomain_fields_and_strict_zone svc.emptyQuery).1,
    ((extensionQueryToDomain_fields_and_strict_zone svc.emptyQuery).2.2.2.2.2.2.2.2.2 rfl).1,
    ((extensionQueryToDomain_fields_and_strict_zone svc.emptyQuery).2.2.2.2.2.2.2.2.2 rfl).2⟩

/-! ## The round trip of an extension -/

/-- C10: translating a domain Extension to REST and back gives the same ID,
Product, Version, Description, Zone and Configuration; the result is the
extension with only its Registered and Updated timestamps reset to the zero
time. -/
theorem extensionToDomain_extensionToRest (RFC3339 : Time → GoString) (e : domain.Extension) :
    (svc.extensionToDomain (svc.extensionToRest RFC3339 e)).ID = e.ID ∧
    (svc.extensionToDomain (svc.extensionToRest RFC3339 e)).Product = e.Product ∧
    (svc.extensionToDomain (svc.extensionToRest RFC3339 e)).Version = e.Version ∧
    (svc.extensionToDomain (svc.extensionToRest RFC3339 e)).Description = e.Description ∧
    (svc.extensionToDomain (svc.extensionToRest RFC3339 e)).Zone = e.Zone ∧
    (svc.extensionToDomain (svc.extensionToRest RFC3339 e)).Configuration = e.Configuration ∧
    svc.extensionToDomain (svc.extensionToRest RFC3339 e) =
      { e with Registered := Time.zero, Updated := Time.zero } :=
  ⟨rfl, rfl, rfl, rfl, rfl, rfl, rfl⟩

/-! ## Listing -/

namespace svc

theorem foldl_set_enumFrom {α β : Type} (f : α → β) (l : List α) :
    ∀ (k : Nat) (acc : List (Option β)), acc.length = k + l.length →
      (l.enumFrom k).foldl (fun res p => res.set p.1 (some (f p.2))) acc =
        acc.take k ++ l.map (fun a => some (f a)) := by
  induction l with
  | nil =>
    intro k acc h
    simp only [List.length_nil, Nat.add_zero] at h
    simp [List.take_of_length_le (Nat.le_of_eq h)]
  | cons x xs ih =>
    intro k acc h
    simp only [List.length_cons] at h
    have hk : k < acc.length := by omega
    simp only [List.enumFrom_cons, List.foldl_cons]
    rw [ih (k + 1) (acc.set k (some (f x))) (by simp only [List.length_set]; omega)]
    rw [List.take_succ, List.getElem?_set_self hk, List.set_take,
      List.set_eq_of_length_le (by simp only [List.length_take]; omega)]
    simp

theorem foldl_set_enum {α β : Type} (f : α → β) (l : List α) :
    l.enum.foldl (fun res p => res.set p.1 (some (f p.2))) (List.replicate l.length none) =
      l.map (fun a => some (f a)) := by
  have h := foldl_set_enumFrom f l 0 (List.replicate l.length none) (by simp)
  simpa [List.enum] using h

end svc

/-- C11: when the registry returns a list of extension records, ListExtensions
returns a list of the same length whose entry at each index is the
extensionRecordToRest of the record at that index, none left nil; in each
translation the services are the translations of the record's services, and
in each service the endpoints and the credentials are the translations of the
service record's, in the same number and order. The result is a function of
the returned records alone. -/
theorem ListExtensions_preserves_shape_and_order {σ : Type} (RFC3339 : Time → GoString)
    (registry : domain.ExtensionRegistry σ) (st st1 : σ) (query : extension.ExtensionQuery)
    (extRecords : List domain.ExtensionRecord)
    (h : registry.ListExtensions st (svc.extensionQueryToDomain query) = (.ok extRecords, st1)) :
    ∃ res : List (Option extension.Extension),
      svc.ListExtensions RFC3339 registry st query = ((some res, none), st1) ∧
      res.length = extRecords.length ∧
      (∀ i : Nat, res[i]? =
        (extRecords[i]?).map (fun extRecord => some (svc.extensionRecordToRest RFC3339 extRecord))) ∧
      res = extRecords.map (fun extRecord => some (svc.extensionRecordToRest RFC3339 extRecord)) ∧
      (∀ extRecord : domain.ExtensionRecord,
        (svc.extensionRecordToRest RFC3339 extRecord).Services.length =
            extRecord.Services.length ∧
          ∀ j : Nat, (svc.extensionRecordToRest RFC3339 extRecord).Services[j]? =
            (extRecord.Services[j]?).map (svc.extensionServiceRecordToRest RFC3339)) ∧
      (∀ svcRecord : domain.ExtensionServiceRecord,
        (svc.extensionServiceRecordToRest RFC3339 svcRecord).Endpoints.length =
            svcRecord.Endpoints.length ∧
          (svc.extensionServiceRecordToRest RFC3339 svcRecord).Credentials.length =
            svcRecord.Credentials.length ∧
          (∀ j : Nat, (svc.extensionServiceRecordToRest RFC3339 svcRecord).Endpoints[j]? =
            (svcRecord.Endpoints[j]?).map svc.extensionEndpointToRest) ∧
          ∀ j : Nat, (svc.extensionServiceRecordToRest RFC3339 svcRecord).Credentials[j]? =
            (svcRecord.Credentials[j]?).map (svc.extensionCredentialsToRest RFC3339)) := by
  refine ⟨extRecords.map (fun extRecord => some (svc.extensionRecordToRest RFC3339 extRecord)),
    ?_, by simp, ?_, rfl, ?_, ?_⟩
  · simp only [svc.ListExtensions, h, svc.foldl_set_enum]
  · intro i
    simp
  · intro extRecord
    rw [svc.extensionRecordToRest_eq]
    simp
  · intro svcRecord
    rw [svc.extensionServiceRecordToRest_eq]
    simp

/-- C11 at the registry that stores the sample record: the listing has one
entry, the translation of that record. -/
theorem ListExtensions_preserves_shape_and_order_witness :
    (svc.fixedRegistry (some (svc.sampleRecord (ascii "s3cr3t"))) none none none).ListExtensions ()
        (svc.extensionQueryToDomain svc.emptyQuery) =
      (.ok [svc.sampleRecord (ascii "s3cr3t")], ()) ∧
    ∃ res : List (Option extension.Extension),
      svc.ListExtensions (fun _ => [])
          (svc.fixedRegistry (some (svc.sampleRecord (ascii "s3cr3t"))) none none none) ()
          svc.emptyQuery = ((some res, none), ()) ∧
      res.length = [svc.sampleRecord (ascii "s3cr3t")].length ∧
      res = [svc.sampleRecord (ascii "s3cr3t")].map
        (fun extRecord => some (svc.extensionRecordToRest (fun _ => []) extRecord)) :=
  ⟨rfl,
    match ListExtensions_preserves_shape_and_order (fun _ => [])
      (svc.fixedRegistry (some (svc.sampleRecord (ascii "s3cr3t"))) none none none) () ()
      svc.emptyQuery [svc.sampleRecord (ascii "s3cr3t")] rfl with
    | ⟨res, h1, h2, _, h4, _⟩ => ⟨res, h1, h2, h4⟩⟩

/-! ## Defaults of absent enumeration fields -/

/-- C12: extensionEndpointToDomain yields the type External when the request
carries no type and otherwise the supplied type string; extensionCredentialsToDomain
yields the scope Global when the request carries no scope and otherwise the
supplied scope string, and Default = false when the default marker is absent
(the supplied marker otherwise). -/
theorem toDomain_defaults_of_absent_fields (endpoint : extension.ExtensionEndpoint)
    (credentials : extension.ExtensionCredentials) :
    (endpoint.Type_ = none →
      (svc.extensionEndpointToDomain endpoint).Type_ = domain.EETExternal) ∧
    (∀ t, endpoint.Type_ = some t → (svc.extensionEndpointToDomain endpoint).Type_ = t) ∧
    (credentials.Scope = none →
      (svc.extensionCredentialsToDomain credentials).Scope = domain.ECSGlobal) ∧
    (∀ scope, credentials.Scope = some scope →
      (svc.extensionCredentialsToDomain credentials).Scope = scope) ∧
    (credentials.Default = none →
      (svc.extensionCredentialsToDomain credentials).Default = false) ∧
    (∀ b, credentials.Default = some b →
      (svc.extensionCredentialsToDomain credentials).Default = b) := by
  refine ⟨?_, ?_, ?_, ?_, ?_, ?_⟩
  · intro h; simp [svc.extensionEndpointToDomain, util.DerefString, h]
  · intro t h; simp [svc.extensionEndpointToDomain, util.DerefString, h]
  · intro h; simp [svc.extensionCredentialsToDomain, util.DerefString, h]
  · intro scope h; simp [svc.extensionCredentialsToDomain, util.DerefString, h]
  · intro h; simp [svc.extensionCredentialsToDomain, util.DerefBool, h]
  · intro b h; simp [svc.extensionCredentialsToDomain, util.DerefBool, h]

/-- C12 at a request endpoint without a type and a credentials request without
scope and default marker. -/
theorem toDomain_defaults_of_absent_fields_witness :
    (svc.endpointRequest (ascii "http://host")).Type_ = none ∧
    svc.sampleCredentialsRequest.Scope = none ∧
    svc.sampleCredentialsRequest.Default = none ∧
    (svc.extensionEndpointToDomain (svc.endpointRequest (ascii "http://host"))).Type_ =
      domain.EETExternal ∧
    (svc.extensionCredentialsToDomain svc.sampleCredentialsRequest).Scope = domain.ECSGlobal ∧
    (svc.extensionCredentialsToDomain svc.sampleCredentialsRequest).Default = false :=
  ⟨rfl, rfl, rfl,
    (toDomain_defaults_of_absent_fields (svc.endpointRequest (ascii "http://host"))
      svc.sampleCredentialsRequest).1 rfl,
    (toDomain_defaults_of_absent_fields (svc.endpointRequest (ascii "http://host"))
      svc.sampleCredentialsRequest).2.2.1 rfl,
    (toDomain_defaults_of_absent_fields (svc.endpointRequest (ascii "http://host"))
      svc.sampleCredentialsRequest).2.2.2.2.1 rfl⟩

/-! ## Workflow creation -/

/-- C13: Create hands the backend the workflow with its Created field set to the
formatted current time. If the backend fails, Create returns no workflow and
that same error, the store keeps its state and AddWorkflow is not called. If
the backend succeeds, Create returns exactly what workflowStore.AddWorkflow
returns for the workflow the backend was handed, as the backend left it, and
AddWorkflow is called once, with that workflow; for a backend that does not
write to the workflow this is the workflow with its Created field set. -/
theorem Create_stores_only_accepted_workflows {β σ ρ ε : Type}
    (mgr : manager.workflowManager β σ ρ ε) (RFC3339 : Time → GoString) (now : Time)
    (b : β) (s : σ) (wf : workflow.Workflow ρ) :
    (∀ (err : ε) (wf1 : workflow.Workflow ρ) (b1 : β),
      mgr.workflowBackend.CreateWorkflow b { wf with Created := some (RFC3339 now) } =
        ((some err, wf1), b1) →
      mgr.Create RFC3339 now (b, s) wf = ((none, some err), (b1, s)) ∧
        (manager.workflowManager.Create
          { mgr with workflowStore := manager.tracedStore mgr.workflowStore }
          RFC3339 now (b, (s, [])) wf).2.2.2 = []) ∧
    (∀ (wf1 : workflow.Workflow ρ) (b1 : β),
      mgr.workflowBackend.CreateWorkflow b { wf with Created := some (RFC3339 now) } =
        ((none, wf1), b1) →
      mgr.Create RFC3339 now (b, s) wf =
          ((mgr.workflowStore.AddWorkflow s wf1).1, (b1, (mgr.workflowStore.AddWorkflow s wf1).2)) ∧
        (manager.workflowManager.Create
          { mgr with workflowStore := manager.tracedStore mgr.workflowStore }
          RFC3339 now (b, (s, [])) wf).2.2.2 = [wf1]) ∧
    (∀ b1 : β,
      mgr.workflowBackend.CreateWorkflow b { wf with Created := some (RFC3339 now) } =
        ((none, { wf with Created := some (RFC3339 now) }), b1) →
      mgr.Create RFC3339 now (b, s) wf =
        ((mgr.workflowStore.AddWorkflow s { wf with Created := some (RFC3339 now) }).1,
          (b1, (mgr.workflowStore.AddWorkflow s { wf with Created := some (RFC3339 now) }).2))) := by
  refine ⟨?_, ?_, ?_⟩
  · intro err wf1 b1 h
    constructor
    · simp only [manager.workflowManager.Create, h]
    · simp only [manager.workflowManager.Create, h]
  · intro wf1 b1 h
    constructor
    · simp only [manager.workflowManager.Create, h]
    · simp only [manager.workflowManager.Create, manager.tracedStore, h, List.nil_append]
  · intro b1 h
    simp only [manager.workflowManager.Create, h]

/-- C13 at the sample workflow: the rejecting backend leaves the store empty
and returns its error; with the accepting backend the store receives the
workflow with its Created field set. -/
theorem Create_stores_only_accepted_workflows_witness :
    ((manager.sampleBackend true).CreateWorkflow ()
        { manager.sampleWorkflow with Created := some (ascii "2021-06-01T00:00:00Z") } =
      ((some (ascii "rejected"),
        { manager.sampleWorkflow with Created := some (ascii "2021-06-01T00:00:00Z") }), ()) ∧
      manager.workflowManager.Create
          { workflowBackend := manager.sampleBackend true, workflowStore := manager.sampleStore }
          (fun _ => ascii "2021-06-01T00:00:00Z") Time.zero ((), []) manager.sampleWorkflow =
        ((none, some (ascii "rejected")), ((), []))) ∧
    ((manager.sampleBackend false).CreateWorkflow ()
        { manager.sampleWorkflow with Created := some (ascii "2021-06-01T00:00:00Z") } =
      ((none, { manager.sampleWorkflow with Created := some (ascii "2021-06-01T00:00:00Z") }),
        ()) ∧
      manager.workflowManager.Create
          { workflowBackend := manager.sampleBackend false, workflowStore := manager.sampleStore }
          (fun _ => ascii "2021-06-01T00:00:00Z") Time.zero ((), []) manager.sampleWorkflow =
        ((some { manager.sampleWorkflow with Created := some (ascii "2021-06-01T00:00:00Z") },
            none),
          ((), [{ manager.sampleWorkflow with
            Created := some (ascii "2021-06-01T00:00:00Z") }]))) :=
  ⟨⟨rfl,
      ((Create_stores_only_accepted_workflows
        { workflowBackend := manager.sampleBackend true, workflowStore := manager.sampleStore }
        (fun _ => ascii "2021-06-01T00:00:00Z") Time.zero () [] manager.sampleWorkflow).1
        (ascii "rejected")
        { manager.sampleWorkflow with Created := some (ascii "2021-06-01T00:00:00Z") } ()
        rfl).1⟩,
    ⟨rfl,
      (Create_stores_only_accepted_workflows
        { workflowBackend := manager.sampleBackend false, workflowStore := manager.sampleStore }
        (fun _ => ascii "2021-06-01T00:00:00Z") Time.zero () [] manager.sampleWorkflow).2.2 ()
        rfl⟩⟩
